import Mathlib

/-!
# BGI converter: format detection and conversion to TGA

A shallow embedding of `detect_format` and `bgi_to_tga` from `src/main.cpp`.

* A file is the list of its bytes; `none` stands for a file that cannot be opened.
* `std::ifstream` is modelled by `IStream`: the bytes, the read position and the
  failure flag.  A short `read` stores the bytes that are available, leaves the
  rest of the destination as it was and sets the failure flag; on a failed
  stream `read` and `seekg` do nothing.
* `int` is a 32-bit two's complement integer: the result of every `int`
  operation is wrapped into `[-2^31, 2^31)`.
* Automatic objects that the source does not initialise (`info`, the three
  header structs, `rgb`) start with arbitrary contents, which are parameters.
* Constructing a `std::vector` with a negative `int` size throws; an index
  outside a vector is reported as `Fault.out_of_bounds`.
-/

namespace BGI

/-- A byte (`uint8_t`, `char`). -/
abbrev Byte := Fin 256

/-! ## 32-bit `int` arithmetic -/

/-- Reduce an integer to the range of a 32-bit two's complement `int`. -/
def wrap32 (x : Int) : Int := (x + 2147483648) % 4294967296 - 2147483648

/-- The product `a * b` of two `int`s. -/
def mul32 (a b : Int) : Int := wrap32 (a * b)

/-- The sum `a + b` of two `int`s. -/
def add32 (a b : Int) : Int := wrap32 (a + b)

/-- The difference `a - b` of two `int`s. -/
def sub32 (a b : Int) : Int := wrap32 (a - b)

/-- The quotient `a / b` of two `int`s, rounded towards zero. -/
def div32 (a b : Int) : Int := wrap32 (Int.tdiv a b)

/-- The function `abs` on `int`: the negation wraps, so `abs32 (-2^31) = -2^31`. -/
def abs32 (x : Int) : Int := if x < 0 then wrap32 (-x) else x

/-- Conversion of an `int` to `uint8_t`. -/
def toByte (x : Int) : Byte := Fin.ofNat (x % 256).toNat

/-! ## Little-endian fields of a packed struct -/

/-- The byte at offset `i` of a buffer. -/
def byteAt (b : List Byte) (i : Nat) : Nat := (b.getD i 0).val

/-- A `uint16_t` field at offset `i`. -/
def u16le (b : List Byte) (i : Nat) : Nat := byteAt b i + 256 * byteAt b (i + 1)

/-- A `uint32_t` field at offset `i`. -/
def u32le (b : List Byte) (i : Nat) : Nat :=
  byteAt b i + 256 * byteAt b (i + 1) + 65536 * byteAt b (i + 2) + 16777216 * byteAt b (i + 3)

/-- An `int32_t` field at offset `i`. -/
def s32le (b : List Byte) (i : Nat) : Int := wrap32 (u32le b i)

/-! ## Input streams -/

/-- The state of a `std::ifstream` over a file. -/
structure IStream where
  data : List Byte
  pos : Nat
  failed : Bool
deriving DecidableEq

namespace IStream

/-- A stream freshly opened on a file. -/
def opened (data : List Byte) : IStream := ⟨data, 0, false⟩

/-- The bytes from the read position to the end of the file. -/
def rest (s : IStream) : List Byte := s.data.drop s.pos

/-- The call `read(buf, n)`: returns the destination buffer and the stream after the call. -/
def read (s : IStream) (buf : List Byte) (n : Nat) : List Byte × IStream :=
  if s.failed then (buf, s)
  else
    let got := s.rest.take n
    (got ++ buf.drop got.length,
      { s with pos := s.pos + got.length, failed := decide (got.length < n) })

/-- The call `seekg(p)` from the beginning of the file. -/
def seekg (s : IStream) (p : Nat) : IStream :=
  if s.failed then s else { s with pos := p }

end IStream

/-! ## Format detection -/

/-- The `enum class BGIFormat`. -/
inductive BGIFormat where
  | UNKNOWN
  | BMP_FORMAT
  | RGBA_0x20
  | RGB_0x00
deriving DecidableEq

/-- The `struct FileInfo`. -/
structure FileInfo where
  format : BGIFormat
  width : Int
  height : Int
  bpp : Int
  data_offset : Nat
deriving DecidableEq

/-- Initial contents of the automatic objects of `detect_format`, which the source
does not initialise. -/
structure Uninit where
  info : FileInfo
  bmp_header : List Byte
  bmp_info : List Byte
  bgi_header : List Byte

/-- The function `detect_format`.  `BMPHeader` is 14 bytes (`signature` at 0,
`data_offset` at 10), `BMPInfoHeader` is 40 bytes (`width` at 4, `height` at 8, `bpp`
at 14) and `BGIHeader` is 16 bytes (`width` at 0, `height` at 2, `format` at 4). -/
def detect_format (u : Uninit) (file : Option (List Byte)) : FileInfo :=
  let info : FileInfo := { u.info with format := BGIFormat.UNKNOWN }
  match file with
  | none => info
  | some data =>
    let r1 := (IStream.opened data).read u.bmp_header 14
    let bmp_header := r1.1
    if u16le bmp_header 0 = 0x4D42 then
      let bmp_info := (r1.2.read u.bmp_info 40).1
      { format := BGIFormat.BMP_FORMAT
        width := s32le bmp_info 4
        height := abs32 (s32le bmp_info 8)
        bpp := u16le bmp_info 14
        data_offset := u32le bmp_header 10 }
    else
      let bgi_header := ((r1.2.seekg 0).read u.bgi_header 16).1
      let info : FileInfo :=
        { info with
          width := u16le bgi_header 0
          height := u16le bgi_header 2
          data_offset := 16 }
      if u32le bgi_header 4 = 0x00000020 then
        { info with format := BGIFormat.RGBA_0x20, bpp := 32 }
      else if u32le bgi_header 4 = 0x00000000 then
        { info with format := BGIFormat.RGB_0x00, bpp := 24 }
      else info

/-! ## Conversion to TGA -/

/-- Abnormal terminations of the conversion. -/
inductive Fault where
  /-- A `std::vector` constructed with a negative size: the constructor throws. -/
  | length_error
  /-- An access outside a vector. -/
  | out_of_bounds
deriving DecidableEq

/-- The constructor `std::vector<uint8_t> v(n)` for an `int` size: `n` zero bytes. -/
def vector_new (n : Int) : Except Fault (List Byte) :=
  if n < 0 then Except.error Fault.length_error else Except.ok (List.replicate n.toNat 0)

/-- The read `v[i]` for an `int` index. -/
def load (v : List Byte) (i : Int) : Except Fault Byte :=
  if 0 ≤ i ∧ i.toNat < v.length then Except.ok (v.getD i.toNat 0)
  else Except.error Fault.out_of_bounds

/-- The write `v[i] = b` for an `int` index. -/
def store (v : List Byte) (i : Int) (b : Byte) : Except Fault (List Byte) :=
  if 0 ≤ i ∧ i.toNat < v.length then Except.ok (v.set i.toNat b)
  else Except.error Fault.out_of_bounds

/-- The call `memcpy(&dst[d], &src[s], n)` for `int` arguments; returns `dst` after the call. -/
def memcpy (dst : List Byte) (d : Int) (src : List Byte) (s : Int) (n : Int) :
    Except Fault (List Byte) :=
  if 0 ≤ d ∧ 0 ≤ s ∧ 0 ≤ n ∧ d.toNat + n.toNat ≤ dst.length ∧ s.toNat + n.toNat ≤ src.length then
    Except.ok (dst.take d.toNat ++ (src.drop s.toNat).take n.toNat ++ dst.drop (d.toNat + n.toNat))
  else Except.error Fault.out_of_bounds

/-- The loop `for (int i = 0; i < n; i++) body`, on the state `s`. -/
def forLoop {σ : Type} (n : Nat) (body : Nat → σ → Except Fault σ) (s : σ) : Except Fault σ :=
  match n with
  | 0 => Except.ok s
  | k + 1 =>
    match forLoop k body s with
    | Except.ok s' => body k s'
    | Except.error e => Except.error e

/-- The body of the loop over `x` of the `BMP_FORMAT` case. -/
def bmp_pixel (info : FileInfo) (bytes_per_pixel : Int) (row : List Byte) (y x : Nat)
    (pixels_rgba : List Byte) : Except Fault (List Byte) := do
  let src := mul32 x bytes_per_pixel
  let dst := mul32 (add32 (mul32 y info.width) x) 4
  let r ← load row (add32 src 2)
  let pixels_rgba ← store pixels_rgba (add32 dst 0) r
  let g ← load row (add32 src 1)
  let pixels_rgba ← store pixels_rgba (add32 dst 1) g
  let b ← load row (add32 src 0)
  let pixels_rgba ← store pixels_rgba (add32 dst 2) b
  let a ← (if info.bpp = 32 then load row (add32 src 3) else Except.ok 255)
  store pixels_rgba (add32 dst 3) a

/-- The body of the first loop over `y` of the `BMP_FORMAT` case, on `pixels_rgba` and `inFile`. -/
def bmp_row (info : FileInfo) (bytes_per_pixel row_size : Int) (y : Nat)
    (st : List Byte × IStream) : Except Fault (List Byte × IStream) := do
  let row ← vector_new row_size
  let r := st.2.read row row_size.toNat
  let pixels_rgba ← forLoop info.width.toNat (bmp_pixel info bytes_per_pixel r.1 y) st.1
  pure (pixels_rgba, r.2)

/-- The body of the second loop over `y` of the `BMP_FORMAT` case, on `flipped`. -/
def bmp_flip (info : FileInfo) (pixels_rgba : List Byte) (y : Nat) (flipped : List Byte) :
    Except Fault (List Byte) :=
  memcpy flipped (mul32 (mul32 y info.width) 4)
    pixels_rgba (mul32 (mul32 (sub32 (sub32 info.height 1) y) info.width) 4)
    (mul32 info.width 4)

/-- The `BMP_FORMAT` case of the switch: the new value of `pixels_rgba`. -/
def convert_bmp (info : FileInfo) (inFile : IStream) (pixels_rgba : List Byte) :
    Except Fault (List Byte) := do
  let bytes_per_pixel := div32 info.bpp 8
  let row_size := mul32 (div32 (add32 (mul32 info.width bytes_per_pixel) 3) 4) 4
  let st ← forLoop info.height.toNat (bmp_row info bytes_per_pixel row_size) (pixels_rgba, inFile)
  let flipped ← vector_new (mul32 (mul32 info.width info.height) 4)
  forLoop info.height.toNat (bmp_flip info st.1) flipped

/-- The body of the loop of the `RGB_0x00` case, on `pixels_rgba` and `inFile`; `rgb0 i` is
the initial content of `rgb` in iteration `i`. -/
def rgb_pixel (rgb0 : Nat → List Byte) (i : Nat) (st : List Byte × IStream) :
    Except Fault (List Byte × IStream) := do
  let r := st.2.read (rgb0 i) 3
  let rgb := r.1
  let pixels_rgba ← store st.1 (add32 (mul32 i 4) 0) (rgb.getD 0 0)
  let pixels_rgba ← store pixels_rgba (add32 (mul32 i 4) 1) (rgb.getD 1 0)
  let pixels_rgba ← store pixels_rgba (add32 (mul32 i 4) 2) (rgb.getD 2 0)
  let pixels_rgba ← store pixels_rgba (add32 (mul32 i 4) 3) 255
  pure (pixels_rgba, r.2)

/-- Lines 208 to 269 of `bgi_to_tga`: the content of `pixels_rgba` at the end of the switch
(the canonical pixel buffer), or `none` when the `default` case returns `false`. -/
def read_pixels (info : FileInfo) (rgb0 : Nat → List Byte) (data : List Byte) :
    Except Fault (Option (List Byte)) := do
  let width := info.width
  let height := info.height
  let pixels_rgba ← vector_new (mul32 (mul32 width height) 4)
  let inFile := (IStream.opened data).seekg info.data_offset
  match info.format with
  | BGIFormat.BMP_FORMAT =>
    let flipped ← convert_bmp info inFile pixels_rgba
    pure (some flipped)
  | BGIFormat.RGBA_0x20 =>
    pure (some (inFile.read pixels_rgba (mul32 (mul32 width height) 4).toNat).1)
  | BGIFormat.RGB_0x00 =>
    let st ← forLoop (mul32 width height).toNat (rgb_pixel rgb0) (pixels_rgba, inFile)
    pure (some st.1)
  | BGIFormat.UNKNOWN => pure none

/-- The 18 bytes of `tga_header`. -/
def tga_header (width height : Int) : List Byte :=
  [0, 0, 2, 0, 0, 0, 0, 0, 0, 0, 0, 0,
   toByte width, toByte (width / 256), toByte height, toByte (height / 256), 32, 0x20]

/-- The function `bgi_to_tga`: the value returned and the content of the output file
(`none` when it is not created).  `canCreate` tells whether the output file can be opened
for writing. -/
def bgi_to_tga (u : Uninit) (rgb0 : Nat → List Byte) (input : Option (List Byte))
    (canCreate : Bool) : Except Fault (Bool × Option (List Byte)) :=
  let info := detect_format u input
  if info.format = BGIFormat.UNKNOWN then Except.ok (false, none)
  else
    match input with
    | none => Except.ok (false, none)
    | some data =>
      match read_pixels info rgb0 data with
      | Except.error e => Except.error e
      | Except.ok none => Except.ok (false, none)
      | Except.ok (some pixels_rgba) =>
        if canCreate then
          Except.ok (true, some (tga_header info.width info.height ++ pixels_rgba))
        else Except.ok (false, none)

/-! ## Sample files -/

/-- Automatic objects that happen to hold zero bytes. -/
def zeroed : Uninit :=
  { info := { format := BGIFormat.UNKNOWN, width := 0, height := 0, bpp := 0, data_offset := 0 }
    bmp_header := List.replicate 14 0
    bmp_info := List.replicate 40 0
    bgi_header := List.replicate 16 0 }

/-- An `rgb` array that holds zero bytes before each `read`. -/
def zeroRgb : Nat → List Byte := fun _ => [0, 0, 0]

/-- The 54 bytes of a bitmap file header and info header: pixel data at offset 54, the
four bytes of the width, the four bytes of the height, and the bits per pixel. -/
def bmpHeader (w h : List Byte) (bpp : Byte) : List Byte :=
  [0x42, 0x4D, 0, 0, 0, 0, 0, 0, 0, 0, 54, 0, 0, 0, 40, 0, 0, 0] ++ w ++ h ++ [1, 0, bpp, 0]
    ++ List.replicate 24 0

/-- The 16 bytes of a custom header: width, height and the low byte of the format tag. -/
def customHeader (w0 w1 h0 h1 tag : Byte) : List Byte :=
  [w0, w1, h0, h1, tag, 0, 0, 0, 0, 0, 0, 0, 0, 0, 0, 0]

/-- A 1x1 32-bit bitmap with height field -1 and the pixel `10 20 30 40`. -/
def bmpTopDown1x1 : List Byte :=
  bmpHeader [1, 0, 0, 0] [0xFF, 0xFF, 0xFF, 0xFF] 32 ++ [0x10, 0x20, 0x30, 0x40]

/-- A bitmap header whose height field is `0x80000000`, that is -2^31. -/
def bmpMinHeight : List Byte := bmpHeader [1, 0, 0, 0] [0, 0, 0, 0x80] 32

/-- A 2x2 24-bit bitmap: two rows of six bytes, each padded to eight. -/
def bmp2x2 : List Byte :=
  bmpHeader [2, 0, 0, 0] [2, 0, 0, 0] 24
    ++ [1, 2, 3, 4, 5, 6, 0, 0, 11, 12, 13, 14, 15, 16, 0, 0]

/-- A 32-bit bitmap of width 2^29 and height 1 with its 2^31 bytes of pixel data. -/
def bmpHuge : List Byte :=
  bmpHeader [0, 0, 0, 0x20] [1, 0, 0, 0] 32 ++ List.replicate 2147483648 0

/-- A 2x1 file of format 0x20 with its eight bytes of pixel data. -/
def rgba2x1 : List Byte := customHeader 2 0 1 0 0x20 ++ [1, 2, 3, 4, 5, 6, 7, 8]

/-- A 32768x16384 file of format 0x20 with its 2^31 bytes of pixel data. -/
def rgbaHuge : List Byte := customHeader 0 0x80 0 0x40 0x20 ++ List.replicate 2147483648 0

/-- A 32768x32768 header of format 0x20 without pixel data. -/
def rgbaWrap : List Byte := customHeader 0 0x80 0 0x80 0x20

/-- A 4x4 file of format 0x20 with 48 of its 64 bytes of pixel data. -/
def rgbaTruncated : List Byte := customHeader 4 0 4 0 0x20 ++ List.replicate 48 7

/-- The first 14 bytes of a 2x2 header of format 0x20. -/
def rgba14 : List Byte := [2, 0, 2, 0, 0x20, 0, 0, 0, 0, 0, 0, 0, 0, 0]

/-- The 2x2 file of format 0x00 with the pixels red, green, blue, white. -/
def rgb2x2 : List Byte :=
  customHeader 2 0 2 0 0
    ++ [0xFF, 0, 0, 0, 0xFF, 0, 0, 0, 0xFF, 0xFF, 0xFF, 0xFF]

/-- A 32768x16384 file of format 0x00 with its 3 * 2^29 bytes of pixel data. -/
def rgbHuge : List Byte := customHeader 0 0x80 0 0x40 0 ++ List.replicate 1610612736 0

/-- A 16-byte header with the format tag 0x18. -/
def unknownTag : List Byte := customHeader 2 0 2 0 0x18

/-- A file that holds the two bytes "BM" and nothing else. -/
def bmOnly : List Byte := [0x42, 0x4D]

/-! ## Lemmas on bytes, fields and streams -/

theorem byteAt_lt (b : List Byte) (i : Nat) : byteAt b i < 256 := by
  unfold byteAt
  exact (b.getD i 0).isLt

theorem byteAt_eq_of_getElem? {b : List Byte} {i : Nat} {x : Byte} (h : b[i]? = some x) :
    byteAt b i = x.val := by
  simp [byteAt, List.getD_eq_getElem?_getD, h]

theorem u16le_eq_iff (b : List Byte) (i lo hi : Nat) (hlo : lo < 256) :
    u16le b i = lo + 256 * hi ↔ byteAt b i = lo ∧ byteAt b (i + 1) = hi := by
  have h0 := byteAt_lt b i
  unfold u16le
  omega

theorem u32le_lt (b : List Byte) (i : Nat) : u32le b i < 4294967296 := by
  have h0 := byteAt_lt b i
  have h1 := byteAt_lt b (i + 1)
  have h2 := byteAt_lt b (i + 2)
  have h3 := byteAt_lt b (i + 3)
  unfold u32le
  omega

theorem u16le_lt (b : List Byte) (i : Nat) : u16le b i < 65536 := by
  have h0 := byteAt_lt b i
  have h1 := byteAt_lt b (i + 1)
  unfold u16le
  omega

theorem wrap32_of_range {x : Int} (h1 : -2147483648 ≤ x) (h2 : x < 2147483648) : wrap32 x = x := by
  unfold wrap32
  omega

theorem wrap32_range (x : Int) : -2147483648 ≤ wrap32 x ∧ wrap32 x < 2147483648 := by
  unfold wrap32
  omega

namespace IStream

theorem read_fst_byteAt (s : IStream) (buf : List Byte) (n i : Nat) (hf : s.failed = false)
    (hi : i < n) (hlen : s.pos + i < s.data.length) :
    byteAt (s.read buf n).1 i = byteAt s.data (s.pos + i) := by
  have hgot : i < (List.take n (List.drop s.pos s.data)).length := by
    simp only [List.length_take, List.length_drop]
    omega
  simp only [read, hf, rest, byteAt, List.getD_eq_getElem?_getD, Bool.false_eq_true, if_false]
  rw [List.getElem?_append_left hgot, List.getElem?_take, if_pos hi, List.getElem?_drop]

theorem read_snd_of_le (s : IStream) (buf : List Byte) (n : Nat) (hf : s.failed = false)
    (hlen : s.pos + n ≤ s.data.length) :
    (s.read buf n).2 = { data := s.data, pos := s.pos + n, failed := false } := by
  have hgot : (List.take n (List.drop s.pos s.data)).length = n := by
    simp only [List.length_take, List.length_drop]
    omega
  simp [read, hf, rest, hgot]

theorem read_fst_of_le (s : IStream) (buf : List Byte) (n : Nat) (hf : s.failed = false)
    (hlen : s.pos + n ≤ s.data.length) :
    (s.read buf n).1 = (s.data.drop s.pos).take n ++ buf.drop n := by
  have hgot : (List.take n (List.drop s.pos s.data)).length = n := by
    simp only [List.length_take, List.length_drop]
    omega
  simp [read, hf, rest, hgot]

end IStream

/-! ## Format detection: general facts -/

/-- A file of at least two bytes that begins with "BM" is a `BMP_FORMAT` file, whatever
its length. -/
theorem detect_format_signature (u : Uninit) (data : List Byte) (hlen : 2 ≤ data.length)
    (hB : byteAt data 0 = 0x42) (hM : byteAt data 1 = 0x4D) :
    (detect_format u (some data)).format = BGIFormat.BMP_FORMAT := by
  have h0 := IStream.read_fst_byteAt (IStream.opened data) u.bmp_header 14 0 rfl (by omega)
    (by simp only [IStream.opened]; omega)
  have h1 := IStream.read_fst_byteAt (IStream.opened data) u.bmp_header 14 1 rfl (by omega)
    (by simp only [IStream.opened]; omega)
  have hsig : u16le ((IStream.opened data).read u.bmp_header 14).1 0 = 0x4D42 := by
    rw [show (0x4D42 : Nat) = 0x42 + 256 * 0x4D from rfl, u16le_eq_iff _ _ _ _ (by omega)]
    simp only [IStream.opened, Nat.zero_add] at h0 h1 ⊢
    exact ⟨h0.trans hB, h1.trans hM⟩
  simp only [detect_format, hsig, if_true]

/-- The descriptor of a file of at least 54 bytes that begins with "BM". -/
theorem detect_format_bmp (u : Uninit) (data : List Byte) (hlen : 54 ≤ data.length)
    (hB : byteAt data 0 = 0x42) (hM : byteAt data 1 = 0x4D) :
    detect_format u (some data) =
      { format := BGIFormat.BMP_FORMAT
        width := s32le data 18
        height := abs32 (s32le data 22)
        bpp := u16le data 28
        data_offset := u32le data 10 } := by
  have hs : ∀ i, i < 14 → byteAt ((IStream.opened data).read u.bmp_header 14).1 i
      = byteAt data i := by
    intro i hi
    have := IStream.read_fst_byteAt (IStream.opened data) u.bmp_header 14 i rfl hi
      (by simp only [IStream.opened]; omega)
    simpa [IStream.opened] using this
  have hsig : u16le ((IStream.opened data).read u.bmp_header 14).1 0 = 0x4D42 := by
    rw [show (0x4D42 : Nat) = 0x42 + 256 * 0x4D from rfl, u16le_eq_iff _ _ _ _ (by omega)]
    exact ⟨(hs 0 (by omega)).trans hB, (hs 1 (by omega)).trans hM⟩
  have h2 := IStream.read_snd_of_le (IStream.opened data) u.bmp_header 14 rfl
    (by simp only [IStream.opened]; omega)
  have hi : ∀ i, i < 40 →
      byteAt (((IStream.opened data).read u.bmp_header 14).2.read u.bmp_info 40).1 i
        = byteAt data (14 + i) := by
    intro i hi
    rw [h2]
    have := IStream.read_fst_byteAt
      { data := (IStream.opened data).data, pos := (IStream.opened data).pos + 14, failed := false }
      u.bmp_info 40 i rfl hi (by simp only [IStream.opened]; omega)
    simpa [IStream.opened] using this
  have ho : u32le ((IStream.opened data).read u.bmp_header 14).1 10 = u32le data 10 := by
    simp only [u32le, Nat.reduceAdd]
    rw [hs 10 (by omega), hs 11 (by omega), hs 12 (by omega), hs 13 (by omega)]
  have hw : u32le (((IStream.opened data).read u.bmp_header 14).2.read u.bmp_info 40).1 4
      = u32le data 18 := by
    simp only [u32le, Nat.reduceAdd]
    rw [hi 4 (by omega), hi 5 (by omega), hi 6 (by omega), hi 7 (by omega)]
  have hh : u32le (((IStream.opened data).read u.bmp_header 14).2.read u.bmp_info 40).1 8
      = u32le data 22 := by
    simp only [u32le, Nat.reduceAdd]
    rw [hi 8 (by omega), hi 9 (by omega), hi 10 (by omega), hi 11 (by omega)]
  have hb : u16le (((IStream.opened data).read u.bmp_header 14).2.read u.bmp_info 40).1 14
      = u16le data 28 := by
    simp only [u16le, Nat.reduceAdd]
    rw [hi 14 (by omega), hi 15 (by omega)]
  simp only [detect_format, hsig, if_true, s32le, ho, hw, hh, hb]

/-- The descriptor of a file of at least 14 bytes that does not begin with "BM": the
sixteen-byte header is read as far as the file goes. -/
theorem detect_format_custom (u : Uninit) (data : List Byte) (hlen : 14 ≤ data.length)
    (hsig : ¬ (byteAt data 0 = 0x42 ∧ byteAt data 1 = 0x4D)) :
    detect_format u (some data) =
      if u32le data 4 = 0x00000020 then
        { format := BGIFormat.RGBA_0x20, width := u16le data 0, height := u16le data 2,
          bpp := 32, data_offset := 16 }
      else if u32le data 4 = 0x00000000 then
        { format := BGIFormat.RGB_0x00, width := u16le data 0, height := u16le data 2,
          bpp := 24, data_offset := 16 }
      else
        { format := BGIFormat.UNKNOWN, width := u16le data 0, height := u16le data 2,
          bpp := u.info.bpp, data_offset := 16 } := by
  have hs : ∀ i, i < 14 → byteAt ((IStream.opened data).read u.bmp_header 14).1 i
      = byteAt data i := by
    intro i hi
    have := IStream.read_fst_byteAt (IStream.opened data) u.bmp_header 14 i rfl hi
      (by simp only [IStream.opened]; omega)
    simpa [IStream.opened] using this
  have hnsig : ¬ u16le ((IStream.opened data).read u.bmp_header 14).1 0 = 0x4D42 := by
    rw [show (0x4D42 : Nat) = 0x42 + 256 * 0x4D from rfl, u16le_eq_iff _ _ _ _ (by omega),
      hs 0 (by omega), hs 1 (by omega)]
    exact hsig
  have h2 := IStream.read_snd_of_le (IStream.opened data) u.bmp_header 14 rfl
    (by simp only [IStream.opened]; omega)
  have hg : ∀ i, i < 14 →
      byteAt ((((IStream.opened data).read u.bmp_header 14).2.seekg 0).read u.bgi_header 16).1 i
        = byteAt data i := by
    intro i hi
    rw [h2]
    have := IStream.read_fst_byteAt
      { data := data, pos := 0, failed := false }
      u.bgi_header 16 i rfl (by omega) (by simp only []; omega)
    simpa [IStream.opened, IStream.seekg] using this
  have hw : u16le ((((IStream.opened data).read u.bmp_header 14).2.seekg 0).read
      u.bgi_header 16).1 0 = u16le data 0 := by
    simp only [u16le, Nat.reduceAdd]
    rw [hg 0 (by omega), hg 1 (by omega)]
  have hh : u16le ((((IStream.opened data).read u.bmp_header 14).2.seekg 0).read
      u.bgi_header 16).1 2 = u16le data 2 := by
    simp only [u16le, Nat.reduceAdd]
    rw [hg 2 (by omega), hg 3 (by omega)]
  have ht : u32le ((((IStream.opened data).read u.bmp_header 14).2.seekg 0).read
      u.bgi_header 16).1 4 = u32le data 4 := by
    simp only [u32le, Nat.reduceAdd]
    rw [hg 4 (by omega), hg 5 (by omega), hg 6 (by omega), hg 7 (by omega)]
  simp only [detect_format, hnsig, if_false, hw, hh, ht]

/-! ## Arithmetic without overflow -/

theorem mul32_nat (a b : Nat) (h : a * b < 2147483648) :
    mul32 (a : Int) (b : Int) = ((a * b : Nat) : Int) := by
  unfold mul32
  rw [← Nat.cast_mul]
  exact wrap32_of_range (by omega) (by omega)

theorem add32_nat (a b : Nat) (h : a + b < 2147483648) :
    add32 (a : Int) (b : Int) = ((a + b : Nat) : Int) := by
  unfold add32
  rw [← Nat.cast_add]
  exact wrap32_of_range (by omega) (by omega)

theorem sub32_nat (a b : Nat) (hb : b ≤ a) (h : a < 2147483648) :
    sub32 (a : Int) (b : Int) = ((a - b : Nat) : Int) := by
  unfold sub32
  rw [← Nat.cast_sub hb]
  exact wrap32_of_range (by omega) (by omega)

theorem div32_nat (a b : Nat) (h : a < 2147483648) :
    div32 (a : Int) (b : Int) = ((a / b : Nat) : Int) := by
  unfold div32
  rw [← Int.ofNat_tdiv]
  have hq := Nat.div_le_self a b
  generalize a / b = q at hq ⊢
  exact wrap32_of_range (by omega) (by omega)

theorem mul_add_lt_mul {a b c d : Nat} (h : a < b) (h2 : d < c) : a * c + d < b * c := by
  have := Nat.mul_le_mul_right c (Nat.succ_le_of_lt h)
  rw [Nat.succ_mul] at this
  omega

/-! ## Vectors and loops -/

theorem vector_new_nat (n : Nat) : vector_new (n : Int) = Except.ok (List.replicate n 0) := by
  simp [vector_new]

theorem load_nat (v : List Byte) (j : Nat) (h : j < v.length) :
    load v (j : Int) = Except.ok (v.getD j 0) := by
  simp [load, h]

theorem store_nat (v : List Byte) (j : Nat) (b : Byte) (h : j < v.length) :
    store v (j : Int) b = Except.ok (v.set j b) := by
  simp [store, h]

theorem memcpy_nat (dst src : List Byte) (d s n : Nat) (hd : d + n ≤ dst.length)
    (hs : s + n ≤ src.length) :
    memcpy dst (d : Int) src (s : Int) (n : Int)
      = Except.ok (dst.take d ++ (src.drop s).take n ++ dst.drop (d + n)) := by
  simp [memcpy, hd, hs]

theorem forLoop_inv {σ : Type} (P : Nat → σ → Prop) (n : Nat) (body : Nat → σ → Except Fault σ)
    (s : σ) (h0 : P 0 s)
    (hstep : ∀ k, k < n → ∀ t, P k t → ∃ t', body k t = Except.ok t' ∧ P (k + 1) t') :
    ∃ t, forLoop n body s = Except.ok t ∧ P n t := by
  induction n with
  | zero => exact ⟨s, rfl, h0⟩
  | succ m ih =>
    obtain ⟨t, ht, hP⟩ := ih (fun k hk t hPt => hstep k (Nat.lt_succ_of_lt hk) t hPt)
    obtain ⟨t', ht', hP'⟩ := hstep m (Nat.lt_succ_self m) t hP
    exact ⟨t', by simp only [forLoop, ht, ht'], hP'⟩

namespace IStream

theorem read_fst_length (s : IStream) (buf : List Byte) (n : Nat) (h : buf.length = n) :
    (s.read buf n).1.length = n := by
  unfold read
  split
  · exact h
  · simp only [List.length_append, List.length_take, List.length_drop, rest]
    omega

theorem read_fst_getElem? (s : IStream) (buf : List Byte) (n i : Nat) (hf : s.failed = false)
    (hi : i < n) (hlen : s.pos + i < s.data.length) :
    (s.read buf n).1[i]? = s.data[s.pos + i]? := by
  have hgot : i < (List.take n (List.drop s.pos s.data)).length := by
    simp only [List.length_take, List.length_drop]
    omega
  simp only [read, hf, rest, Bool.false_eq_true, if_false]
  rw [List.getElem?_append_left hgot, List.getElem?_take, if_pos hi, List.getElem?_drop]

end IStream

/-! ## The `RGB_0x00` loop -/

/-- One iteration of the `RGB_0x00` loop succeeds when the four destination bytes exist. -/
theorem rgb_pixel_eq (rgb0 : Nat → List Byte) (k : Nat) (px : List Byte) (st : IStream)
    (hk : 4 * k + 3 < px.length) (hN : px.length < 2147483648) :
    rgb_pixel rgb0 k (px, st) = Except.ok
      ((((px.set (4 * k) ((st.read (rgb0 k) 3).1.getD 0 0)).set (4 * k + 1)
          ((st.read (rgb0 k) 3).1.getD 1 0)).set (4 * k + 2)
          ((st.read (rgb0 k) 3).1.getD 2 0)).set (4 * k + 3) 255,
        (st.read (rgb0 k) 3).2) := by
  have hm : mul32 (k : Int) 4 = ((4 * k : Nat) : Int) := by
    have := mul32_nat k 4 (by omega)
    rw [Nat.mul_comm k 4] at this
    exact this
  have h0 : add32 (mul32 (k : Int) 4) 0 = ((4 * k : Nat) : Int) := by
    rw [hm]; exact add32_nat (4 * k) 0 (by omega)
  have h1 : add32 (mul32 (k : Int) 4) 1 = ((4 * k + 1 : Nat) : Int) := by
    rw [hm]; exact add32_nat (4 * k) 1 (by omega)
  have h2 : add32 (mul32 (k : Int) 4) 2 = ((4 * k + 2 : Nat) : Int) := by
    rw [hm]; exact add32_nat (4 * k) 2 (by omega)
  have h3 : add32 (mul32 (k : Int) 4) 3 = ((4 * k + 3 : Nat) : Int) := by
    rw [hm]; exact add32_nat (4 * k) 3 (by omega)
  simp only [rgb_pixel, h0, h1, h2, h3]
  rw [store_nat _ _ _ (by omega)]
  simp only [bind, Except.bind]
  rw [store_nat _ _ _ (by simp only [List.length_set]; omega)]
  simp only []
  rw [store_nat _ _ _ (by simp only [List.length_set]; omega)]
  simp only []
  rw [store_nat _ _ _ (by simp only [List.length_set]; omega)]
  rfl

theorem getD_of_getElem? {l : List Byte} {i : Nat} {x : Byte} (h : l[i]? = some x) :
    l.getD i 0 = x := by
  simp [List.getD_eq_getElem?_getD, h]

theorem some_getD_of_lt {l : List Byte} {i : Nat} (h : i < l.length) :
    some (l.getD i 0) = l[i]? := by
  simp [List.getD_eq_getElem?_getD, List.getElem?_eq_getElem h]

/-- The `RGB_0x00` loop never fails and keeps the size of `pixels_rgba`, whatever the file
holds. -/
theorem rgb_loop_length (rgb0 : Nat → List Byte) (n : Nat) (px : List Byte) (st : IStream)
    (hn : 4 * n ≤ px.length) (hN : px.length < 2147483648) :
    ∃ t, forLoop n (rgb_pixel rgb0) (px, st) = Except.ok t ∧ t.1.length = px.length := by
  apply forLoop_inv (fun _ (t : List Byte × IStream) => t.1.length = px.length)
  · rfl
  · intro k hk t ht
    refine ⟨_, rgb_pixel_eq rgb0 k t.1 t.2 (by omega) (by omega), ?_⟩
    simp only [List.length_set]
    exact ht

/-- The `RGB_0x00` loop on a file that holds the whole payload: pixel `i` is the triplet at
`pos + 3 * i` followed by 255. -/
theorem rgb_loop_content (rgb0 : Nat → List Byte) (n : Nat) (px : List Byte)
    (data : List Byte) (pos : Nat)
    (hn : 4 * n ≤ px.length) (hN : px.length < 2147483648) (hlen : pos + 3 * n ≤ data.length) :
    ∃ t, forLoop n (rgb_pixel rgb0) (px, { data := data, pos := pos, failed := false })
        = Except.ok t ∧ t.1.length = px.length ∧
      ∀ i, i < n → t.1[4 * i]? = data[pos + 3 * i]? ∧ t.1[4 * i + 1]? = data[pos + 3 * i + 1]? ∧
        t.1[4 * i + 2]? = data[pos + 3 * i + 2]? ∧ t.1[4 * i + 3]? = some 255 := by
  have key := forLoop_inv
    (fun k (t : List Byte × IStream) => t.1.length = px.length ∧
      t.2 = { data := data, pos := pos + 3 * k, failed := false } ∧
      ∀ i, i < k → t.1[4 * i]? = data[pos + 3 * i]? ∧ t.1[4 * i + 1]? = data[pos + 3 * i + 1]? ∧
        t.1[4 * i + 2]? = data[pos + 3 * i + 2]? ∧ t.1[4 * i + 3]? = some 255)
    n (rgb_pixel rgb0) (px, { data := data, pos := pos, failed := false })
    ⟨rfl, rfl, fun i hi => absurd hi (Nat.not_lt_zero i)⟩
    (by
      intro k hk t ht
      obtain ⟨hl, hst, hc⟩ := ht
      refine ⟨_, rgb_pixel_eq rgb0 k t.1 t.2 (by omega) (by omega), ?_, ?_, ?_⟩
      · simp only [List.length_set]
        exact hl
      · rw [hst, IStream.read_snd_of_le _ _ _ rfl (by simp only []; omega)]
        simp only [IStream.mk.injEq, true_and, and_true]
        omega
      · intro i hi
        have hb : ∀ c, c < 3 → some ((t.2.read (rgb0 k) 3).1.getD c 0) = data[pos + 3 * k + c]? := by
          intro c hc3
          have h1 := IStream.read_fst_getElem? t.2 (rgb0 k) 3 c (by rw [hst]) hc3
            (by rw [hst]; simp only []; omega)
          rw [hst] at h1
          simp only [] at h1
          have h2 : pos + 3 * k + c < data.length := by omega
          rw [List.getElem?_eq_getElem h2] at h1 ⊢
          rw [hst, getD_of_getElem? h1]
        rcases Nat.lt_succ_iff_lt_or_eq.mp hi with hlt | heq
        · obtain ⟨c0, c1, c2, c3⟩ := hc i hlt
          refine ⟨?_, ?_, ?_, ?_⟩
          · rw [List.getElem?_set_ne (by omega), List.getElem?_set_ne (by omega),
              List.getElem?_set_ne (by omega), List.getElem?_set_ne (by omega)]
            exact c0
          · rw [List.getElem?_set_ne (by omega), List.getElem?_set_ne (by omega),
              List.getElem?_set_ne (by omega), List.getElem?_set_ne (by omega)]
            exact c1
          · rw [List.getElem?_set_ne (by omega), List.getElem?_set_ne (by omega),
              List.getElem?_set_ne (by omega), List.getElem?_set_ne (by omega)]
            exact c2
          · rw [List.getElem?_set_ne (by omega), List.getElem?_set_ne (by omega),
              List.getElem?_set_ne (by omega), List.getElem?_set_ne (by omega)]
            exact c3
        · subst heq
          refine ⟨?_, ?_, ?_, ?_⟩
          · rw [List.getElem?_set_ne (by omega), List.getElem?_set_ne (by omega),
              List.getElem?_set_ne (by omega), List.getElem?_set_self (by omega)]
            exact hb 0 (by omega)
          · rw [List.getElem?_set_ne (by omega), List.getElem?_set_ne (by omega),
              List.getElem?_set_self (by simp only [List.length_set]; omega)]
            exact hb 1 (by omega)
          · rw [List.getElem?_set_ne (by omega),
              List.getElem?_set_self (by simp only [List.length_set]; omega)]
            exact hb 2 (by omega)
          · rw [List.getElem?_set_self (by simp only [List.length_set]; omega)])
  obtain ⟨t, ht, hl, _, hc⟩ := key
  exact ⟨t, ht, hl, hc⟩

/-! ## The pixel buffer of the two custom formats -/

theorem size_nat (W H : Nat) (h : W * H * 4 < 2147483648) :
    mul32 (mul32 (W : Int) (H : Int)) 4 = ((W * H * 4 : Nat) : Int) := by
  rw [mul32_nat W H (by omega)]
  exact mul32_nat (W * H) 4 h

/-- The `RGBA_0x20` case: one `read` into the zero-filled buffer. -/
theorem read_pixels_rgba (info : FileInfo) (rgb0 : Nat → List Byte) (data : List Byte)
    (W H : Nat) (hfmt : info.format = BGIFormat.RGBA_0x20) (hw : info.width = W)
    (hh : info.height = H) (hsz : W * H * 4 < 2147483648) :
    read_pixels info rgb0 data = Except.ok (some
      (((IStream.opened data).seekg info.data_offset).read
        (List.replicate (W * H * 4) 0) (W * H * 4)).1) := by
  unfold read_pixels
  simp only [hfmt, hw, hh]
  rw [size_nat W H hsz, vector_new_nat]
  rfl

/-- The `RGB_0x00` case: the result of the loop. -/
theorem read_pixels_rgb (info : FileInfo) (rgb0 : Nat → List Byte) (data : List Byte)
    (W H : Nat) (hfmt : info.format = BGIFormat.RGB_0x00) (hw : info.width = W)
    (hh : info.height = H) (hsz : W * H * 4 < 2147483648) (t : List Byte × IStream)
    (ht : forLoop (W * H) (rgb_pixel rgb0)
      (List.replicate (W * H * 4) 0, (IStream.opened data).seekg info.data_offset)
        = Except.ok t) :
    read_pixels info rgb0 data = Except.ok (some t.1) := by
  unfold read_pixels
  simp only [hfmt, hw, hh]
  rw [size_nat W H hsz, vector_new_nat, mul32_nat W H (by omega)]
  simp only [bind, Except.bind, Int.toNat_natCast, ht]
  rfl

/-- The descriptor of a file classified in one of the two custom formats: the geometry
comes from two unsigned 16-bit fields and the pixel data start at byte 16. -/
theorem detect_format_custom_fields (u : Uninit) (file : Option (List Byte))
    (h : (detect_format u file).format = BGIFormat.RGBA_0x20 ∨
      (detect_format u file).format = BGIFormat.RGB_0x00) :
    ∃ W H : Nat, W < 65536 ∧ H < 65536 ∧ (detect_format u file).width = W ∧
      (detect_format u file).height = H ∧ (detect_format u file).data_offset = 16 ∧
      ((detect_format u file).format = BGIFormat.RGBA_0x20 → (detect_format u file).bpp = 32) ∧
      ((detect_format u file).format = BGIFormat.RGB_0x00 → (detect_format u file).bpp = 24) := by
  cases file with
  | none => simp [detect_format] at h
  | some data =>
    simp only [detect_format] at h ⊢
    split_ifs at h ⊢ with h1 h2 h3
    · simp at h
    · exact ⟨_, _, u16le_lt _ 0, u16le_lt _ 2, rfl, rfl, rfl, by simp, by simp⟩
    · exact ⟨_, _, u16le_lt _ 0, u16le_lt _ 2, rfl, rfl, rfl, by simp, by simp⟩
    · simp at h

/-! ## The `BMP_FORMAT` case -/

theorem offset32_nat (a c : Nat) (h : a + c < 2147483648) :
    add32 (a : Int) (c : Int) = ((a + c : Nat) : Int) := add32_nat a c h

theorem index32_nat (y W x : Nat) (h : 4 * (y * W + x) < 2147483648) :
    mul32 (add32 (mul32 (y : Int) (W : Int)) (x : Int)) 4 = ((4 * (y * W + x) : Nat) : Int) := by
  rw [mul32_nat y W (by omega), add32_nat (y * W) x (by omega)]
  have := mul32_nat (y * W + x) 4 (by omega)
  rw [Nat.mul_comm (y * W + x) 4] at this
  exact this

/-- One iteration of the loop over `x`: four bytes of `pixels_rgba` are written from the
row, in the order R, G, B, A. -/
theorem bmp_pixel_eq (info : FileInfo) (W B P : Nat) (row px : List Byte) (y x : Nat)
    (hw : info.width = W) (hb : info.bpp = B) (hBP : (B = 24 ∧ P = 3) ∨ (B = 32 ∧ P = 4))
    (hrow : x * P + P ≤ row.length) (hpx : 4 * (y * W + x) + 3 < px.length)
    (hN : px.length < 2147483648) :
    bmp_pixel info (P : Int) row y x px = Except.ok
      ((((px.set (4 * (y * W + x)) (row.getD (x * P + 2) 0)).set (4 * (y * W + x) + 1)
        (row.getD (x * P + 1) 0)).set (4 * (y * W + x) + 2)
        (row.getD (x * P) 0)).set (4 * (y * W + x) + 3)
        (if B = 32 then row.getD (x * P + 3) 0 else 255)) := by
  have hxP : x * P ≤ 4 * x := by
    rcases hBP with ⟨_, h⟩ | ⟨_, h⟩ <;> subst h <;> omega
  have hl2 : x * P + 2 < row.length := by
    rcases hBP with ⟨_, h⟩ | ⟨_, h⟩ <;> subst h <;> omega
  have hl3 : B = 32 → x * P + 3 < row.length := by
    intro h32
    rcases hBP with ⟨h, _⟩ | ⟨_, h⟩
    · omega
    · subst h; omega
  have hl1 : x * P + 1 < row.length := by omega
  have hl0 : x * P < row.length := by omega
  have hb3 : x * P + 3 < 2147483648 := by omega
  have hd : 4 * (y * W + x) + 3 < 2147483648 := by omega
  have e0 : 4 * (y * W + x) < px.length := by omega
  have e1 : 4 * (y * W + x) + 1 < px.length := by omega
  have e2 : 4 * (y * W + x) + 2 < px.length := by omega
  have hsrc : mul32 (x : Int) (P : Int) = ((x * P : Nat) : Int) :=
    mul32_nat x P (Nat.lt_of_le_of_lt (Nat.le_add_right _ 3) hb3)
  have hdst := index32_nat y W x (Nat.lt_of_le_of_lt (Nat.le_add_right _ 3) hd)
  have hs0 : add32 (mul32 (x : Int) (P : Int)) 0 = ((x * P : Nat) : Int) := by
    rw [hsrc]; exact offset32_nat (x * P) 0 (Nat.lt_of_le_of_lt (Nat.le_add_right _ 3) hb3)
  have hs1 : add32 (mul32 (x : Int) (P : Int)) 1 = ((x * P + 1 : Nat) : Int) := by
    rw [hsrc]; exact offset32_nat (x * P) 1 (Nat.lt_of_le_of_lt (Nat.le_succ _) (Nat.lt_of_le_of_lt (Nat.le_succ _) hb3))
  have hs2 : add32 (mul32 (x : Int) (P : Int)) 2 = ((x * P + 2 : Nat) : Int) := by
    rw [hsrc]; exact offset32_nat (x * P) 2 (Nat.lt_of_le_of_lt (Nat.le_succ _) hb3)
  have hs3 : add32 (mul32 (x : Int) (P : Int)) 3 = ((x * P + 3 : Nat) : Int) := by
    rw [hsrc]; exact offset32_nat (x * P) 3 hb3
  have hd0 : add32 (mul32 (add32 (mul32 (y : Int) (W : Int)) (x : Int)) 4) 0
      = ((4 * (y * W + x) : Nat) : Int) := by
    rw [hdst]
    exact offset32_nat (4 * (y * W + x)) 0 (Nat.lt_of_le_of_lt (Nat.le_add_right _ 3) hd)
  have hd1 : add32 (mul32 (add32 (mul32 (y : Int) (W : Int)) (x : Int)) 4) 1
      = ((4 * (y * W + x) + 1 : Nat) : Int) := by
    rw [hdst]
    exact offset32_nat (4 * (y * W + x)) 1
      (Nat.lt_of_le_of_lt (Nat.le_succ _) (Nat.lt_of_le_of_lt (Nat.le_succ _) hd))
  have hd2 : add32 (mul32 (add32 (mul32 (y : Int) (W : Int)) (x : Int)) 4) 2
      = ((4 * (y * W + x) + 2 : Nat) : Int) := by
    rw [hdst]
    exact offset32_nat (4 * (y * W + x)) 2 (Nat.lt_of_le_of_lt (Nat.le_succ _) hd)
  have hd3 : add32 (mul32 (add32 (mul32 (y : Int) (W : Int)) (x : Int)) 4) 3
      = ((4 * (y * W + x) + 3 : Nat) : Int) := by
    rw [hdst]
    exact offset32_nat (4 * (y * W + x)) 3 hd
  have ha : (if info.bpp = 32 then load row (add32 (mul32 (x : Int) (P : Int)) 3)
      else Except.ok 255)
      = Except.ok (if B = 32 then row.getD (x * P + 3) 0 else 255) := by
    rcases hBP with ⟨hB, hP⟩ | ⟨hB, hP⟩
    · subst hB
      rw [hb]
      simp
    · rw [hb, hs3, load_nat _ _ (hl3 hB)]
      subst hB
      simp
  unfold bmp_pixel
  simp only []
  rw [hw, hs0, hs1, hs2, hd0, hd1, hd2, hd3, ha]
  rw [load_nat _ _ hl2, load_nat _ _ hl1, load_nat _ _ hl0]
  simp only [bind, Except.bind]
  rw [store_nat _ _ _ e0]
  simp only []
  rw [store_nat _ _ _ (by rw [List.length_set]; exact e1)]
  simp only []
  rw [store_nat _ _ _ (by rw [List.length_set, List.length_set]; exact e2)]
  simp only []
  rw [store_nat _ _ _ (by rw [List.length_set, List.length_set, List.length_set]; exact hpx)]

/-! ### The loop over the pixels of a row -/

theorem set4_length (px : List Byte) (i : Nat) (a b c d : Byte) :
    ((((px.set i a).set (i + 1) b).set (i + 2) c).set (i + 3) d).length = px.length := by
  simp only [List.length_set]

theorem set4_getElem?_ne (px : List Byte) (i j : Nat) (a b c d : Byte)
    (h : j < i ∨ i + 3 < j) :
    ((((px.set i a).set (i + 1) b).set (i + 2) c).set (i + 3) d)[j]? = px[j]? := by
  rw [List.getElem?_set_ne (by omega), List.getElem?_set_ne (by omega),
    List.getElem?_set_ne (by omega), List.getElem?_set_ne (by omega)]

theorem set4_getElem? (px : List Byte) (i : Nat) (a b c d : Byte) (h : i + 3 < px.length) :
    ((((px.set i a).set (i + 1) b).set (i + 2) c).set (i + 3) d)[i]? = some a ∧
    ((((px.set i a).set (i + 1) b).set (i + 2) c).set (i + 3) d)[i + 1]? = some b ∧
    ((((px.set i a).set (i + 1) b).set (i + 2) c).set (i + 3) d)[i + 2]? = some c ∧
    ((((px.set i a).set (i + 1) b).set (i + 2) c).set (i + 3) d)[i + 3]? = some d := by
  refine ⟨?_, ?_, ?_, ?_⟩
  · rw [List.getElem?_set_ne (by omega), List.getElem?_set_ne (by omega),
      List.getElem?_set_ne (by omega), List.getElem?_set_self (by omega)]
  · rw [List.getElem?_set_ne (by omega), List.getElem?_set_ne (by omega),
      List.getElem?_set_self (by simp only [List.length_set]; omega)]
  · rw [List.getElem?_set_ne (by omega),
      List.getElem?_set_self (by simp only [List.length_set]; omega)]
  · rw [List.getElem?_set_self (by simp only [List.length_set]; omega)]

/-- The loop over `x` for the row `y`: it writes the pixels of that row and leaves the
bytes of the rows before it. -/
theorem bmp_row_loop (info : FileInfo) (W B P : Nat) (row px : List Byte) (y : Nat)
    (hw : info.width = W) (hb : info.bpp = B) (hBP : (B = 24 ∧ P = 3) ∨ (B = 32 ∧ P = 4))
    (hrow : W * P ≤ row.length) (hpx : 4 * (y * W + W) ≤ px.length)
    (hN : px.length < 2147483648) :
    ∃ px', forLoop W (bmp_pixel info (P : Int) row y) px = Except.ok px' ∧
      px'.length = px.length ∧ (∀ j, j < 4 * (y * W) → px'[j]? = px[j]?) ∧
      ∀ x, x < W →
        px'[4 * (y * W + x)]? = some (row.getD (x * P + 2) 0) ∧
        px'[4 * (y * W + x) + 1]? = some (row.getD (x * P + 1) 0) ∧
        px'[4 * (y * W + x) + 2]? = some (row.getD (x * P) 0) ∧
        px'[4 * (y * W + x) + 3]? = some (if B = 32 then row.getD (x * P + 3) 0 else 255) := by
  apply forLoop_inv (fun k (t : List Byte) =>
      t.length = px.length ∧ (∀ j, j < 4 * (y * W) → t[j]? = px[j]?) ∧
      ∀ x, x < k →
        t[4 * (y * W + x)]? = some (row.getD (x * P + 2) 0) ∧
        t[4 * (y * W + x) + 1]? = some (row.getD (x * P + 1) 0) ∧
        t[4 * (y * W + x) + 2]? = some (row.getD (x * P) 0) ∧
        t[4 * (y * W + x) + 3]? = some (if B = 32 then row.getD (x * P + 3) 0 else 255))
  · exact ⟨rfl, fun _ _ => rfl, fun x hx => absurd hx (Nat.not_lt_zero x)⟩
  · intro k hk t ht
    obtain ⟨hl, hlow, hc⟩ := ht
    have hkP : k * P + P ≤ row.length := by
      have := Nat.mul_le_mul_right P (Nat.succ_le_of_lt hk)
      rw [Nat.succ_mul] at this
      exact Nat.le_trans this hrow
    have hidx : 4 * (y * W + k) + 3 < t.length := by
      rw [hl]
      clear hw hb hlow hc hkP hrow hBP
      omega
    refine ⟨_, bmp_pixel_eq info W B P row t y k hw hb hBP hkP hidx (by rw [hl]; exact hN),
      ?_, ?_, ?_⟩
    · rw [set4_length]
      exact hl
    · intro j hj
      rw [set4_getElem?_ne _ _ _ _ _ _ _ (Or.inl (by clear hw hb hlow hc; omega))]
      exact hlow j hj
    · intro x hx
      rcases Nat.lt_succ_iff_lt_or_eq.mp hx with hlt | heq
      · obtain ⟨c0, c1, c2, c3⟩ := hc x hlt
        refine ⟨?_, ?_, ?_, ?_⟩
        · rw [set4_getElem?_ne _ _ _ _ _ _ _ (Or.inl (by clear hw hb hlow hc c0 c1 c2 c3; omega))]
          exact c0
        · rw [set4_getElem?_ne _ _ _ _ _ _ _ (Or.inl (by clear hw hb hlow hc c0 c1 c2 c3; omega))]
          exact c1
        · rw [set4_getElem?_ne _ _ _ _ _ _ _ (Or.inl (by clear hw hb hlow hc c0 c1 c2 c3; omega))]
          exact c2
        · rw [set4_getElem?_ne _ _ _ _ _ _ _ (Or.inl (by clear hw hb hlow hc c0 c1 c2 c3; omega))]
          exact c3
      · subst heq
        exact set4_getElem? t (4 * (y * W + x)) _ _ _ _ hidx

/-! ### The loop over the rows -/

/-- One iteration of the first loop over `y`: a row of `S` bytes is read into a zero-filled
vector and converted. -/
theorem bmp_row_eq (info : FileInfo) (W B P S : Nat) (px : List Byte) (st : IStream) (y : Nat)
    (hw : info.width = W) (hb : info.bpp = B) (hBP : (B = 24 ∧ P = 3) ∨ (B = 32 ∧ P = 4))
    (hS : W * P ≤ S) (hpx : 4 * (y * W + W) ≤ px.length) (hN : px.length < 2147483648) :
    ∃ px', bmp_row info (P : Int) (S : Int) y (px, st)
        = Except.ok (px', (st.read (List.replicate S 0) S).2) ∧
      px'.length = px.length ∧ (∀ j, j < 4 * (y * W) → px'[j]? = px[j]?) ∧
      ∀ x, x < W →
        px'[4 * (y * W + x)]? = some ((st.read (List.replicate S 0) S).1.getD (x * P + 2) 0) ∧
        px'[4 * (y * W + x) + 1]? = some ((st.read (List.replicate S 0) S).1.getD (x * P + 1) 0) ∧
        px'[4 * (y * W + x) + 2]? = some ((st.read (List.replicate S 0) S).1.getD (x * P) 0) ∧
        px'[4 * (y * W + x) + 3]? = some (if B = 32 then
          (st.read (List.replicate S 0) S).1.getD (x * P + 3) 0 else 255) := by
  have hrl : (st.read (List.replicate S 0) S).1.length = S :=
    IStream.read_fst_length st _ S (List.length_replicate S 0)
  obtain ⟨px', hloop, hrest⟩ := bmp_row_loop info W B P (st.read (List.replicate S 0) S).1 px y
    hw hb hBP (by rw [hrl]; exact hS) hpx hN
  refine ⟨px', ?_, hrest⟩
  unfold bmp_row
  rw [vector_new_nat]
  simp only [bind, Except.bind, hw, Int.toNat_natCast, hloop]
  rfl

/-- The first loop over `y` never fails and keeps the size of `pixels_rgba`, whatever the
file holds. -/
theorem bmp_rows_length (info : FileInfo) (W H B P S : Nat) (px : List Byte) (st : IStream)
    (hw : info.width = W) (hb : info.bpp = B) (hBP : (B = 24 ∧ P = 3) ∨ (B = 32 ∧ P = 4))
    (hS : W * P ≤ S) (hpx : 4 * (H * W) ≤ px.length) (hN : px.length < 2147483648) :
    ∃ t, forLoop H (bmp_row info (P : Int) (S : Int)) (px, st) = Except.ok t ∧
      t.1.length = px.length := by
  apply forLoop_inv (fun _ (t : List Byte × IStream) => t.1.length = px.length)
  · rfl
  · intro k hk t ht
    have hkW : k * W + W ≤ H * W := by
      have := Nat.mul_le_mul_right W (Nat.succ_le_of_lt hk)
      rw [Nat.succ_mul] at this
      exact this
    obtain ⟨px', h1, h2, _⟩ := bmp_row_eq info W B P S t.1 t.2 k hw hb hBP hS
      (by rw [ht]; clear hw hb; omega) (by rw [ht]; exact hN)
    exact ⟨_, h1, h2.trans ht⟩

/-- The first loop over `y` on a file that holds all the rows: the pixel `x` of the stored
row `y` comes from the bytes at `off + y * S + x * P`. -/
theorem bmp_rows_content (info : FileInfo) (W H B P S : Nat) (px data : List Byte) (off : Nat)
    (hw : info.width = W) (hb : info.bpp = B) (hBP : (B = 24 ∧ P = 3) ∨ (B = 32 ∧ P = 4))
    (hS : W * P ≤ S) (hpx : 4 * (H * W) ≤ px.length) (hN : px.length < 2147483648)
    (hlen : off + H * S ≤ data.length) :
    ∃ t, forLoop H (bmp_row info (P : Int) (S : Int))
        (px, { data := data, pos := off, failed := false }) = Except.ok t ∧
      t.1.length = px.length ∧
      ∀ y, y < H → ∀ x, x < W →
        t.1[4 * (y * W + x)]? = data[off + y * S + x * P + 2]? ∧
        t.1[4 * (y * W + x) + 1]? = data[off + y * S + x * P + 1]? ∧
        t.1[4 * (y * W + x) + 2]? = data[off + y * S + x * P]? ∧
        t.1[4 * (y * W + x) + 3]? =
          (if B = 32 then data[off + y * S + x * P + 3]? else some 255) := by
  have key := forLoop_inv
    (fun k (t : List Byte × IStream) => t.1.length = px.length ∧
      t.2 = { data := data, pos := off + k * S, failed := false } ∧
      ∀ y, y < k → ∀ x, x < W →
        t.1[4 * (y * W + x)]? = data[off + y * S + x * P + 2]? ∧
        t.1[4 * (y * W + x) + 1]? = data[off + y * S + x * P + 1]? ∧
        t.1[4 * (y * W + x) + 2]? = data[off + y * S + x * P]? ∧
        t.1[4 * (y * W + x) + 3]? =
          (if B = 32 then data[off + y * S + x * P + 3]? else some 255))
    H (bmp_row info (P : Int) (S : Int)) (px, { data := data, pos := off, failed := false })
    ⟨rfl, by simp, fun y hy => absurd hy (Nat.not_lt_zero y)⟩
    (by
      intro k hk t ht
      obtain ⟨hl, hst, hc⟩ := ht
      have hkW : k * W + W ≤ H * W := by
        have := Nat.mul_le_mul_right W (Nat.succ_le_of_lt hk)
        rw [Nat.succ_mul] at this
        exact this
      have hkS : k * S + S ≤ H * S := by
        have := Nat.mul_le_mul_right S (Nat.succ_le_of_lt hk)
        rw [Nat.succ_mul] at this
        exact this
      have hfits : off + k * S + S ≤ data.length := by
        clear hw hb hc hst hl
        omega
      obtain ⟨px', h1, h2, h3, h4⟩ := bmp_row_eq info W B P S t.1 t.2 k hw hb hBP hS
        (by rw [hl]; clear hw hb hc hst; omega) (by rw [hl]; exact hN)
      have hrow : ∀ i, i < S →
          some ((t.2.read (List.replicate S 0) S).1.getD i 0) = data[off + k * S + i]? := by
        intro i hi
        have e1 := IStream.read_fst_getElem? t.2 (List.replicate S 0) S i (by rw [hst]) hi
          (by rw [hst]; simp only []; clear hw hb hc hst h3 h4; omega)
        rw [hst] at e1
        simp only [] at e1
        have e2 : off + k * S + i < data.length := by
          clear hw hb hc hst h3 h4 e1
          omega
        rw [List.getElem?_eq_getElem e2] at e1 ⊢
        rw [hst, getD_of_getElem? e1]
      refine ⟨_, h1, h2.trans hl, ?_, ?_⟩
      · rw [hst, IStream.read_snd_of_le _ _ _ rfl hfits]
        simp only [IStream.mk.injEq, true_and, and_true]
        rw [Nat.succ_mul, Nat.add_assoc]
      · intro y hy x hx
        rcases Nat.lt_succ_iff_lt_or_eq.mp hy with hlt | heq
        · have hj : 4 * (y * W + x) + 3 < 4 * (k * W) := by
            have := @mul_add_lt_mul y k W x hlt hx
            omega
          obtain ⟨c0, c1, c2, c3⟩ := hc y hlt x hx
          refine ⟨?_, ?_, ?_, ?_⟩
          · rw [h3 _ (by omega)]; exact c0
          · rw [h3 _ (by omega)]; exact c1
          · rw [h3 _ (by omega)]; exact c2
          · rw [h3 _ hj]; exact c3
        · subst heq
          obtain ⟨c0, c1, c2, c3⟩ := h4 x hx
          have hxP : x * P + P ≤ S := by
            have := Nat.mul_le_mul_right P (Nat.succ_le_of_lt hx)
            rw [Nat.succ_mul] at this
            exact Nat.le_trans this hS
          have hP3 : 3 ≤ P := by
            rcases hBP with ⟨_, h⟩ | ⟨_, h⟩ <;> omega
          refine ⟨?_, ?_, ?_, ?_⟩
          · rw [c0, hrow _ (by omega), Nat.add_assoc (off + y * S)]
          · rw [c1, hrow _ (by omega), Nat.add_assoc (off + y * S)]
          · rw [c2, hrow _ (by omega)]
          · rw [c3]
            rcases hBP with ⟨hB, hP⟩ | ⟨hB, hP⟩
            · subst hB
              simp
            · subst hB
              simp only [if_true]
              rw [hrow _ (by omega), Nat.add_assoc (off + y * S)])
  obtain ⟨t, ht, hl, _, hc⟩ := key
  exact ⟨t, ht, hl, hc⟩

/-! ### The row flip -/

theorem copied_left (dst src : List Byte) (d s n j : Nat) (hj : j < d) (hd : d ≤ dst.length) :
    (dst.take d ++ (src.drop s).take n ++ dst.drop (d + n))[j]? = dst[j]? := by
  have h1 : j < (dst.take d ++ (src.drop s).take n).length := by
    simp only [List.length_append, List.length_take]
    omega
  have h2 : j < (dst.take d).length := by
    simp only [List.length_take]
    omega
  rw [List.getElem?_append_left h1, List.getElem?_append_left h2, List.getElem?_take, if_pos hj]

theorem copied_mid (dst src : List Byte) (d s n i : Nat) (hi : i < n) (hd : d ≤ dst.length)
    (hs : s + n ≤ src.length) :
    (dst.take d ++ (src.drop s).take n ++ dst.drop (d + n))[d + i]? = src[s + i]? := by
  have h0 : (dst.take d).length = d := by
    simp only [List.length_take]
    omega
  have h1 : d + i < (dst.take d ++ (src.drop s).take n).length := by
    simp only [List.length_append, List.length_take, List.length_drop]
    omega
  rw [List.getElem?_append_left h1, List.getElem?_append_right (by omega), h0,
    Nat.add_sub_cancel_left, List.getElem?_take, if_pos hi, List.getElem?_drop]

theorem copied_length (dst src : List Byte) (d s n : Nat) (hd : d + n ≤ dst.length)
    (hs : s + n ≤ src.length) :
    (dst.take d ++ (src.drop s).take n ++ dst.drop (d + n)).length = dst.length := by
  simp only [List.length_append, List.length_take, List.length_drop]
  omega

/-- One iteration of the second loop over `y`: the row `H - 1 - y` of `pixels_rgba` is
copied to the row `y` of `flipped`. -/
theorem bmp_flip_eq (info : FileInfo) (W H : Nat) (px fl : List Byte) (y : Nat)
    (hw : info.width = W) (hh : info.height = H) (hy : y < H) (hH : H < 2147483648)
    (hpx : px.length = 4 * (H * W)) (hfl : fl.length = 4 * (H * W))
    (hN : 4 * (H * W) < 2147483648) :
    bmp_flip info px y fl = Except.ok
      (fl.take (y * W * 4) ++ (px.drop ((H - 1 - y) * W * 4)).take (W * 4)
        ++ fl.drop (y * W * 4 + W * 4)) := by
  have hyW : y * W + W ≤ H * W := by
    have := Nat.mul_le_mul_right W (Nat.succ_le_of_lt hy)
    rw [Nat.succ_mul] at this
    exact this
  have hzW : (H - 1 - y) * W + W ≤ H * W := by
    have : (H - 1 - y).succ ≤ H := by omega
    have := Nat.mul_le_mul_right W this
    rw [Nat.succ_mul] at this
    exact this
  have a1 : y * W * 4 < 2147483648 := by omega
  have a2 : (H - 1 - y) * W * 4 < 2147483648 := by omega
  have a3 : W * 4 < 2147483648 := by omega
  have b1 : y * W * 4 + W * 4 ≤ fl.length := by omega
  have b2 : (H - 1 - y) * W * 4 + W * 4 ≤ px.length := by omega
  have c1 : 1 ≤ H := by omega
  have c2 : y ≤ H - 1 := by omega
  have c3 : H - 1 < 2147483648 := by omega
  have e1 : sub32 (H : Int) 1 = ((H - 1 : Nat) : Int) := sub32_nat H 1 c1 hH
  have e2 : sub32 (sub32 (H : Int) 1) (y : Int) = ((H - 1 - y : Nat) : Int) := by
    rw [e1]
    exact sub32_nat (H - 1) y c2 c3
  have e3 : mul32 (W : Int) 4 = ((W * 4 : Nat) : Int) := mul32_nat W 4 a3
  unfold bmp_flip
  rw [hw, hh, e2, size_nat y W a1, size_nat (H - 1 - y) W a2, e3]
  exact memcpy_nat fl px (y * W * 4) ((H - 1 - y) * W * 4) (W * 4) b1 b2

/-- The second loop over `y`: row `y` of `flipped` is row `H - 1 - y` of `pixels_rgba`. -/
theorem bmp_flip_loop (info : FileInfo) (W H : Nat) (px fl : List Byte)
    (hw : info.width = W) (hh : info.height = H) (hH : H < 2147483648)
    (hpx : px.length = 4 * (H * W)) (hfl : fl.length = 4 * (H * W))
    (hN : 4 * (H * W) < 2147483648) :
    ∃ fl', forLoop H (bmp_flip info px) fl = Except.ok fl' ∧ fl'.length = 4 * (H * W) ∧
      ∀ y, y < H → ∀ i, i < W * 4 → fl'[y * W * 4 + i]? = px[(H - 1 - y) * W * 4 + i]? := by
  apply forLoop_inv (fun k (t : List Byte) => t.length = 4 * (H * W) ∧
      ∀ y, y < k → ∀ i, i < W * 4 → t[y * W * 4 + i]? = px[(H - 1 - y) * W * 4 + i]?)
  · exact ⟨hfl, fun y hy => absurd hy (Nat.not_lt_zero y)⟩
  · intro k hk t ht
    obtain ⟨hl, hc⟩ := ht
    have hkW : k * W + W ≤ H * W := by
      have := Nat.mul_le_mul_right W (Nat.succ_le_of_lt hk)
      rw [Nat.succ_mul] at this
      exact this
    have hzW : (H - 1 - k) * W + W ≤ H * W := by
      have : (H - 1 - k).succ ≤ H := by omega
      have := Nat.mul_le_mul_right W this
      rw [Nat.succ_mul] at this
      exact this
    have b0 : k * W * 4 ≤ t.length := by omega
    have b1 : k * W * 4 + W * 4 ≤ t.length := by omega
    have b2 : (H - 1 - k) * W * 4 + W * 4 ≤ px.length := by omega
    refine ⟨_, bmp_flip_eq info W H px t k hw hh hk hH hpx hl hN, ?_, ?_⟩
    · rw [copied_length _ _ _ _ _ b1 b2]
      exact hl
    · intro y hy i hi
      rcases Nat.lt_succ_iff_lt_or_eq.mp hy with hlt | heq
      · have hj : y * W * 4 + i < k * W * 4 := by
          have := @mul_add_lt_mul y k W 0 hlt
          have h2 : y * W + W ≤ k * W := by
            have := Nat.mul_le_mul_right W (Nat.succ_le_of_lt hlt)
            rw [Nat.succ_mul] at this
            exact this
          omega
        rw [copied_left _ _ _ _ _ _ hj b0]
        exact hc y hlt i hi
      · subst heq
        exact copied_mid _ _ _ _ _ _ hi b0 b2

/-! ### The whole case -/

theorem row_size_nat (W P : Nat) (h : W * P + 3 < 2147483648) :
    mul32 (div32 (add32 (mul32 (W : Int) (P : Int)) 3) 4) 4
      = (((W * P + 3) / 4 * 4 : Nat) : Int) := by
  have h1 : W * P < 2147483648 := by omega
  have h2 : (W * P + 3) / 4 * 4 < 2147483648 := by omega
  have e1 : add32 (mul32 (W : Int) (P : Int)) 3 = ((W * P + 3 : Nat) : Int) := by
    rw [mul32_nat W P h1]
    exact add32_nat (W * P) 3 h
  have e2 : div32 ((W * P + 3 : Nat) : Int) 4 = (((W * P + 3) / 4 : Nat) : Int) :=
    div32_nat (W * P + 3) 4 h
  rw [e1, e2]
  exact mul32_nat ((W * P + 3) / 4) 4 h2

theorem bytes_per_pixel_nat (B P : Nat) (hBP : (B = 24 ∧ P = 3) ∨ (B = 32 ∧ P = 4)) :
    div32 (B : Int) 8 = (P : Int) := by
  have e : div32 (B : Int) 8 = ((B / 8 : Nat) : Int) := div32_nat B 8 (by omega)
  rw [e]
  rcases hBP with ⟨h1, h2⟩ | ⟨h1, h2⟩ <;> subst h1 <;> subst h2 <;> rfl

/-- The `BMP_FORMAT` case, given the result `t` of its first loop: the second loop turns the
rows over. -/
theorem convert_bmp_flip (info : FileInfo) (W H : Nat) (inFile : IStream) (px : List Byte)
    (t : List Byte × IStream)
    (hw : info.width = W) (hh : info.height = H) (hH : H < 2147483648)
    (hN : W * H * 4 < 2147483648)
    (hrows : forLoop H (bmp_row info (div32 info.bpp 8)
      (mul32 (div32 (add32 (mul32 info.width (div32 info.bpp 8)) 3) 4) 4)) (px, inFile)
        = Except.ok t)
    (ht : t.1.length = 4 * (H * W)) :
    ∃ fl, convert_bmp info inFile px = Except.ok fl ∧ fl.length = W * H * 4 ∧
      ∀ y, y < H → ∀ i, i < W * 4 → fl[y * W * 4 + i]? = t.1[(H - 1 - y) * W * 4 + i]? := by
  have hc : W * H = H * W := Nat.mul_comm W H
  have hN' : 4 * (H * W) < 2147483648 := by omega
  obtain ⟨fl, h1, h2, h3⟩ := bmp_flip_loop info W H t.1 (List.replicate (W * H * 4) 0) hw hh hH ht
    (by rw [List.length_replicate]; omega) hN'
  refine ⟨fl, ?_, by omega, h3⟩
  unfold convert_bmp
  simp only [hh, Int.toNat_natCast, hrows, bind, Except.bind]
  rw [hw, size_nat W H hN, vector_new_nat]
  exact h1

theorem IStream.seekg_opened (data : List Byte) (p : Nat) :
    (IStream.opened data).seekg p = { data := data, pos := p, failed := false } := rfl

/-- The `BMP_FORMAT` case never fails for a 24-bit or 32-bit image whose buffer size fits an
`int`, whatever the file holds after the header, and the buffer has `W * H * 4` bytes. -/
theorem read_pixels_bmp_length (info : FileInfo) (rgb0 : Nat → List Byte) (data : List Byte)
    (W H B P : Nat) (hfmt : info.format = BGIFormat.BMP_FORMAT)
    (hw : info.width = W) (hh : info.height = H) (hb : info.bpp = B)
    (hBP : (B = 24 ∧ P = 3) ∨ (B = 32 ∧ P = 4)) (hH : H < 2147483648)
    (hN : W * H * 4 < 2147483648) :
    ∃ buf, read_pixels info rgb0 data = Except.ok (some buf) ∧ buf.length = W * H * 4 := by
  have hc : W * H = H * W := Nat.mul_comm W H
  have hrows : ∃ t, forLoop H (bmp_row info (div32 info.bpp 8)
      (mul32 (div32 (add32 (mul32 info.width (div32 info.bpp 8)) 3) 4) 4))
        (List.replicate (W * H * 4) 0, (IStream.opened data).seekg info.data_offset)
        = Except.ok t ∧ t.1.length = 4 * (H * W) := by
    rcases Nat.eq_zero_or_pos H with h0 | h0
    · subst h0
      exact ⟨_, rfl, by simp⟩
    · have hWH : W ≤ H * W := Nat.le_mul_of_pos_left W h0
      have hP : P ≤ 4 := by
        rcases hBP with ⟨_, h⟩ | ⟨_, h⟩ <;> omega
      have hWP : W * P ≤ W * 4 := Nat.mul_le_mul_left W hP
      have hS : W * P + 3 < 2147483648 := by
        clear hw hh hb hfmt
        omega
      rw [hb, hw, bytes_per_pixel_nat B P hBP, row_size_nat W P hS]
      obtain ⟨t, h1, h2⟩ := bmp_rows_length info W H B P ((W * P + 3) / 4 * 4)
        (List.replicate (W * H * 4) 0) ((IStream.opened data).seekg info.data_offset)
        hw hb hBP (by omega) (by rw [List.length_replicate]; omega)
        (by rw [List.length_replicate]; exact hN)
      refine ⟨t, h1, ?_⟩
      rw [h2, List.length_replicate]
      omega
  obtain ⟨t, ht, htl⟩ := hrows
  obtain ⟨fl, hfl, hl, _⟩ := convert_bmp_flip info W H _ _ t hw hh hH hN ht htl
  refine ⟨fl, ?_, hl⟩
  unfold read_pixels
  simp only [hfmt]
  rw [hw, hh, size_nat W H hN, vector_new_nat]
  simp only [bind, Except.bind, hfl]
  rfl

/-- The `BMP_FORMAT` case on a file that holds all the rows: the pixel `(x, y)` of the
buffer comes from the stored row `H - 1 - y`, with the channels in the order R, G, B, A. -/
theorem read_pixels_bmp_content (info : FileInfo) (rgb0 : Nat → List Byte) (data : List Byte)
    (W H B P : Nat) (hfmt : info.format = BGIFormat.BMP_FORMAT)
    (hw : info.width = W) (hh : info.height = H) (hb : info.bpp = B)
    (hBP : (B = 24 ∧ P = 3) ∨ (B = 32 ∧ P = 4)) (hH : H < 2147483648)
    (hN : W * H * 4 < 2147483648)
    (hlen : info.data_offset + H * ((W * P + 3) / 4 * 4) ≤ data.length) :
    ∃ buf, read_pixels info rgb0 data = Except.ok (some buf) ∧ buf.length = W * H * 4 ∧
      ∀ x y, x < W → y < H →
        buf[4 * (y * W + x)]? =
          data[info.data_offset + (H - 1 - y) * ((W * P + 3) / 4 * 4) + x * P + 2]? ∧
        buf[4 * (y * W + x) + 1]? =
          data[info.data_offset + (H - 1 - y) * ((W * P + 3) / 4 * 4) + x * P + 1]? ∧
        buf[4 * (y * W + x) + 2]? =
          data[info.data_offset + (H - 1 - y) * ((W * P + 3) / 4 * 4) + x * P]? ∧
        buf[4 * (y * W + x) + 3]? =
          (if B = 32 then
            data[info.data_offset + (H - 1 - y) * ((W * P + 3) / 4 * 4) + x * P + 3]?
          else some 255) := by
  have hc : W * H = H * W := Nat.mul_comm W H
  have hrows : ∃ t, forLoop H (bmp_row info (div32 info.bpp 8)
      (mul32 (div32 (add32 (mul32 info.width (div32 info.bpp 8)) 3) 4) 4))
        (List.replicate (W * H * 4) 0, (IStream.opened data).seekg info.data_offset)
        = Except.ok t ∧ t.1.length = 4 * (H * W) ∧
      ∀ y, y < H → ∀ x, x < W →
        t.1[4 * (y * W + x)]? =
          data[info.data_offset + y * ((W * P + 3) / 4 * 4) + x * P + 2]? ∧
        t.1[4 * (y * W + x) + 1]? =
          data[info.data_offset + y * ((W * P + 3) / 4 * 4) + x * P + 1]? ∧
        t.1[4 * (y * W + x) + 2]? =
          data[info.data_offset + y * ((W * P + 3) / 4 * 4) + x * P]? ∧
        t.1[4 * (y * W + x) + 3]? =
          (if B = 32 then data[info.data_offset + y * ((W * P + 3) / 4 * 4) + x * P + 3]?
            else some 255) := by
    rcases Nat.eq_zero_or_pos H with h0 | h0
    · subst h0
      exact ⟨_, rfl, by simp, fun y hy => absurd hy (Nat.not_lt_zero y)⟩
    · have hWH : W ≤ H * W := Nat.le_mul_of_pos_left W h0
      have hP : P ≤ 4 := by
        rcases hBP with ⟨_, h⟩ | ⟨_, h⟩ <;> omega
      have hWP : W * P ≤ W * 4 := Nat.mul_le_mul_left W hP
      have hS : W * P + 3 < 2147483648 := by
        clear hw hh hb hfmt hlen
        omega
      rw [hb, hw, bytes_per_pixel_nat B P hBP, row_size_nat W P hS, IStream.seekg_opened]
      obtain ⟨t, h1, h2, h3⟩ := bmp_rows_content info W H B P ((W * P + 3) / 4 * 4)
        (List.replicate (W * H * 4) 0) data info.data_offset
        hw hb hBP (by omega) (by rw [List.length_replicate]; omega)
        (by rw [List.length_replicate]; exact hN) hlen
      refine ⟨t, h1, ?_, h3⟩
      rw [h2, List.length_replicate]
      omega
  obtain ⟨t, ht, htl, htc⟩ := hrows
  obtain ⟨fl, hfl, hl, hflc⟩ := convert_bmp_flip info W H _ _ t hw hh hH hN ht htl
  refine ⟨fl, ?_, hl, ?_⟩
  · unfold read_pixels
    simp only [hfmt]
    rw [hw, hh, size_nat W H hN, vector_new_nat]
    simp only [bind, Except.bind, hfl]
    rfl
  · intro x y hx hy
    have hy' : H - 1 - y < H := by omega
    obtain ⟨c0, c1, c2, c3⟩ := htc (H - 1 - y) hy' x hx
    have i0 : 4 * (y * W + x) = y * W * 4 + (4 * x) := by omega
    have i1 : 4 * (y * W + x) + 1 = y * W * 4 + (4 * x + 1) := by omega
    have i2 : 4 * (y * W + x) + 2 = y * W * 4 + (4 * x + 2) := by omega
    have i3 : 4 * (y * W + x) + 3 = y * W * 4 + (4 * x + 3) := by omega
    have j0 : (H - 1 - y) * W * 4 + (4 * x) = 4 * ((H - 1 - y) * W + x) := by omega
    have j1 : (H - 1 - y) * W * 4 + (4 * x + 1) = 4 * ((H - 1 - y) * W + x) + 1 := by omega
    have j2 : (H - 1 - y) * W * 4 + (4 * x + 2) = 4 * ((H - 1 - y) * W + x) + 2 := by omega
    have j3 : (H - 1 - y) * W * 4 + (4 * x + 3) = 4 * ((H - 1 - y) * W + x) + 3 := by omega
    refine ⟨?_, ?_, ?_, ?_⟩
    · rw [i0, hflc y hy (4 * x) (by omega), j0]
      exact c0
    · rw [i1, hflc y hy (4 * x + 1) (by omega), j1]
      exact c1
    · rw [i2, hflc y hy (4 * x + 2) (by omega), j2]
      exact c2
    · rw [i3, hflc y hy (4 * x + 3) (by omega), j3]
      exact c3

/-! ## Further lemmas on the descriptor -/

theorem abs32_eq (x : Int) (h1 : -2147483648 ≤ x) (h2 : x < 2147483648) :
    abs32 x = if x = -2147483648 then -2147483648 else |x| := by
  unfold abs32 wrap32
  split_ifs with h3 h4 h4
  · subst h4
    rfl
  · rw [abs_of_neg h3]
    omega
  · omega
  · rw [abs_of_nonneg (by omega)]

theorem s32le_range (b : List Byte) (i : Nat) :
    -2147483648 ≤ s32le b i ∧ s32le b i < 2147483648 := wrap32_range _

theorem abs32_range (x : Int) (h1 : -2147483648 ≤ x) (h2 : x < 2147483648) :
    -2147483648 ≤ abs32 x ∧ abs32 x < 2147483648 ∧ (0 ≤ abs32 x ∨ abs32 x = -2147483648) := by
  unfold abs32
  split_ifs with h3
  · have := wrap32_range (-x)
    unfold wrap32 at this ⊢
    omega
  · omega

/-- The fields of a `BMP_FORMAT` descriptor are values of their types. -/
theorem detect_format_bmp_fields (u : Uninit) (file : Option (List Byte))
    (h : (detect_format u file).format = BGIFormat.BMP_FORMAT) :
    (detect_format u file).height < 2147483648 ∧
      (0 ≤ (detect_format u file).height ∨ (detect_format u file).height = -2147483648) ∧
      0 ≤ (detect_format u file).bpp ∧ (detect_format u file).bpp < 65536 := by
  cases file with
  | none => simp [detect_format] at h
  | some data =>
    simp only [detect_format] at h ⊢
    split_ifs at h ⊢ with h1 h2 h3
    · simp only []
      have hr := s32le_range (((IStream.opened data).read u.bmp_header 14).2.read u.bmp_info 40).1 8
      have ha := abs32_range _ hr.1 hr.2
      have hb := u16le_lt (((IStream.opened data).read u.bmp_header 14).2.read u.bmp_info 40).1 14
      refine ⟨ha.2.1, ha.2.2, ?_, ?_⟩
      · exact Int.ofNat_nonneg _
      · exact_mod_cast hb

theorem byteAt_append_left (a b : List Byte) (i : Nat) (h : i < a.length) :
    byteAt (a ++ b) i = byteAt a i := by
  simp only [byteAt, List.getD_eq_getElem?_getD, List.getElem?_append_left h]

theorem u16le_append_left (a b : List Byte) (i : Nat) (h : i + 1 < a.length) :
    u16le (a ++ b) i = u16le a i := by
  unfold u16le
  rw [byteAt_append_left a b i (by omega), byteAt_append_left a b (i + 1) h]

theorem u32le_append_left (a b : List Byte) (i : Nat) (h : i + 3 < a.length) :
    u32le (a ++ b) i = u32le a i := by
  unfold u32le
  rw [byteAt_append_left a b i (by omega), byteAt_append_left a b (i + 1) (by omega),
    byteAt_append_left a b (i + 2) (by omega), byteAt_append_left a b (i + 3) h]

/-! ## The claims on `detect_format` -/

/-- C1, as stated, fails: for the 54-byte file `bmpMinHeight`, which begins with "BM" and
whose height field is -2^31, the detected height is not the absolute value of that
field. -/
theorem bitmap_height_not_abs :
    54 ≤ bmpMinHeight.length ∧ byteAt bmpMinHeight 0 = 0x42 ∧ byteAt bmpMinHeight 1 = 0x4D ∧
      (detect_format zeroed (some bmpMinHeight)).format = BGIFormat.BMP_FORMAT ∧
      s32le bmpMinHeight 22 = -2147483648 ∧
      (detect_format zeroed (some bmpMinHeight)).height = -2147483648 ∧
      (detect_format zeroed (some bmpMinHeight)).height ≠ |s32le bmpMinHeight 22| := by
  decide

/-- C1, amended: a file of at least 54 bytes that begins with "BM" is classified
`BMP_FORMAT`, with width the signed 32-bit value at bytes 18-21, bits per pixel the
unsigned 16-bit value at bytes 28-29, pixel data offset the unsigned 32-bit value at bytes
10-13, whatever bytes 4-7 hold; the height is the absolute value of the signed 32-bit
value at bytes 22-25, except that it is -2^31 when that value is -2^31. -/
theorem detect_format_bitmap (u : Uninit) (data : List Byte) (hlen : 54 ≤ data.length)
    (hB : byteAt data 0 = 0x42) (hM : byteAt data 1 = 0x4D) :
    detect_format u (some data) =
      { format := BGIFormat.BMP_FORMAT
        width := s32le data 18
        height := if s32le data 22 = -2147483648 then -2147483648 else |s32le data 22|
        bpp := u16le data 28
        data_offset := u32le data 10 } := by
  rw [detect_format_bmp u data hlen hB hM,
    abs32_eq _ (s32le_range data 22).1 (s32le_range data 22).2]

/-- The amended C1 on the 1x1 bitmap whose height field is -1: the height is 1. -/
theorem detect_format_bitmap_witness :
    54 ≤ bmpTopDown1x1.length ∧ byteAt bmpTopDown1x1 0 = 0x42 ∧ byteAt bmpTopDown1x1 1 = 0x4D ∧
      detect_format zeroed (some bmpTopDown1x1) =
        { format := BGIFormat.BMP_FORMAT, width := 1, height := 1, bpp := 32,
          data_offset := 54 } :=
  ⟨by decide, by decide, by decide,
    (detect_format_bitmap zeroed bmpTopDown1x1 (by decide) (by decide) (by decide)).trans
      (by decide)⟩

/-- C2: a file of at least 16 bytes that does not begin with "BM" is classified by the
unsigned 32-bit tag at bytes 4-7: `RGBA_0x20` with 32 bits per pixel for 0x20, `RGB_0x00`
with 24 bits per pixel for 0, `UNKNOWN` for any other tag; in the two recognised cases the
width and height are the unsigned 16-bit values at bytes 0-1 and 2-3 and the pixel data
offset is 16. -/
theorem detect_format_custom_header (u : Uninit) (data : List Byte) (hlen : 16 ≤ data.length)
    (hsig : ¬ (byteAt data 0 = 0x42 ∧ byteAt data 1 = 0x4D)) :
    (u32le data 4 = 0x00000020 → detect_format u (some data) =
      { format := BGIFormat.RGBA_0x20, width := u16le data 0, height := u16le data 2,
        bpp := 32, data_offset := 16 }) ∧
    (u32le data 4 = 0x00000000 → detect_format u (some data) =
      { format := BGIFormat.RGB_0x00, width := u16le data 0, height := u16le data 2,
        bpp := 24, data_offset := 16 }) ∧
    (u32le data 4 ≠ 0x00000020 → u32le data 4 ≠ 0x00000000 →
      (detect_format u (some data)).format = BGIFormat.UNKNOWN) := by
  have h := detect_format_custom u data (by omega) hsig
  refine ⟨fun h1 => ?_, fun h2 => ?_, fun h1 h2 => ?_⟩
  · rw [h, if_pos h1]
  · rw [h, if_neg (by omega), if_pos h2]
  · rw [h, if_neg h1, if_neg h2]

/-- C2 on three files: the 2x1 file of format 0x20, the 2x2 file of format 0 and a header
with the tag 0x18. -/
theorem detect_format_custom_header_witness :
    detect_format zeroed (some rgba2x1) =
      { format := BGIFormat.RGBA_0x20, width := 2, height := 1, bpp := 32, data_offset := 16 } ∧
    detect_format zeroed (some rgb2x2) =
      { format := BGIFormat.RGB_0x00, width := 2, height := 2, bpp := 24, data_offset := 16 } ∧
    (detect_format zeroed (some unknownTag)).format = BGIFormat.UNKNOWN :=
  ⟨((detect_format_custom_header zeroed rgba2x1 (by decide) (by decide)).1 (by decide)).trans
      (by decide),
    ((detect_format_custom_header zeroed rgb2x2 (by decide) (by decide)).2.1 (by decide)).trans
      (by decide),
    (detect_format_custom_header zeroed unknownTag (by decide) (by decide)).2.2
      (by decide) (by decide)⟩

/-- C9, as stated, fails: the two-byte file "BM" is classified `BMP_FORMAT`, and a 14-byte
file with the tag 0x20 is classified `RGBA_0x20`. -/
theorem short_file_classified :
    bmOnly.length < 54 ∧
      (detect_format zeroed (some bmOnly)).format = BGIFormat.BMP_FORMAT ∧
    rgba14.length < 16 ∧
      (detect_format zeroed (some rgba14)).format = BGIFormat.RGBA_0x20 := by
  decide

/-- C9, amended: `detect_format` does not look at how many bytes a `read` delivered.  A file
of at least two bytes that begins with "BM" is classified `BMP_FORMAT` whatever its length,
and a file of at least 14 bytes that does not begin with "BM" is classified by the tag at
bytes 4-7, `RGBA_0x20` for 0x20, `RGB_0x00` for 0 and `UNKNOWN` otherwise, also when it has
fewer than 16 bytes. -/
theorem detect_format_short (u : Uninit) (data : List Byte) (hlen : 2 ≤ data.length) :
    (byteAt data 0 = 0x42 ∧ byteAt data 1 = 0x4D →
      (detect_format u (some data)).format = BGIFormat.BMP_FORMAT) ∧
    (14 ≤ data.length → ¬ (byteAt data 0 = 0x42 ∧ byteAt data 1 = 0x4D) →
      (detect_format u (some data)).format =
        if u32le data 4 = 0x00000020 then BGIFormat.RGBA_0x20
        else if u32le data 4 = 0x00000000 then BGIFormat.RGB_0x00
        else BGIFormat.UNKNOWN) := by
  refine ⟨fun h => detect_format_signature u data hlen h.1 h.2, fun h14 hsig => ?_⟩
  rw [detect_format_custom u data h14 hsig]
  split_ifs <;> rfl

/-- The amended C9 on the two-byte file "BM" and on a 14-byte file with the tag 0x20. -/
theorem detect_format_short_witness :
    2 ≤ bmOnly.length ∧ bmOnly.length < 54 ∧
      (detect_format zeroed (some bmOnly)).format = BGIFormat.BMP_FORMAT ∧
    14 ≤ rgba14.length ∧ rgba14.length < 16 ∧
      (detect_format zeroed (some rgba14)).format = BGIFormat.RGBA_0x20 :=
  ⟨by decide, by decide,
    (detect_format_short zeroed bmOnly (by decide)).1 (by decide),
    by decide, by decide,
    ((detect_format_short zeroed rgba14 (by decide)).2 (by decide) (by decide)).trans
      (by decide)⟩

/-- C3, as stated, fails: `bmpHuge` is a 32-bit bitmap of width 2^29 and height 1 that holds
its whole row of 2^31 bytes, and the conversion ends in the constructor of `pixels_rgba`,
because `width * height * 4` is not an `int`. -/
theorem bitmap_huge_fails :
    (detect_format zeroed (some bmpHuge)).format = BGIFormat.BMP_FORMAT ∧
      (detect_format zeroed (some bmpHuge)).bpp = 32 ∧
      (detect_format zeroed (some bmpHuge)).width = 536870912 ∧
      (detect_format zeroed (some bmpHuge)).height = 1 ∧
      (detect_format zeroed (some bmpHuge)).data_offset + 1 * ((536870912 * (32 / 8) + 3) / 4 * 4)
        ≤ bmpHuge.length ∧
      read_pixels (detect_format zeroed (some bmpHuge)) zeroRgb bmpHuge
        = Except.error Fault.length_error := by
  have hd : detect_format zeroed (some bmpHuge) =
      { format := BGIFormat.BMP_FORMAT, width := 536870912, height := 1, bpp := 32,
        data_offset := 54 } := by
    have h := detect_format_bmp zeroed bmpHuge
      (by rw [bmpHuge, List.length_append, List.length_replicate]; decide)
      (by rw [bmpHuge, byteAt_append_left _ _ _ (by decide)]; decide)
      (by rw [bmpHuge, byteAt_append_left _ _ _ (by decide)]; decide)
    rw [h]
    unfold s32le
    rw [bmpHuge, u32le_append_left _ _ 18 (by decide), u32le_append_left _ _ 22 (by decide),
      u16le_append_left _ _ 28 (by decide), u32le_append_left _ _ 10 (by decide)]
    decide
  rw [hd]
  refine ⟨rfl, rfl, rfl, rfl, ?_, rfl⟩
  rw [bmpHuge, List.length_append, List.length_replicate]
  decide

/-- C3, amended with the bound `w * h * 4 < 2^31`: for a file classified `BMP_FORMAT` with
`B` = 24 or 32 bits per pixel, width `W`, height `H`, `W * H * 4 < 2^31` and at least
`data_offset + H * stride` bytes, where `stride = (W * (B / 8) + 3) / 4 * 4`, the conversion
yields a buffer of `W * H * 4` bytes in which the pixel at `4 * (y * W + x)` is (R, G, B, A):
B, G, R are the file bytes at `data_offset + (H - 1 - y) * stride + x * (B / 8) + 0, 1, 2`,
and A is the byte at `+ 3` for 32 bits and 255 for 24 bits. -/
theorem bitmap_pixels (u : Uninit) (rgb0 : Nat → List Byte) (data : List Byte) (W H B : Nat)
    (hfmt : (detect_format u (some data)).format = BGIFormat.BMP_FORMAT)
    (hw : (detect_format u (some data)).width = W)
    (hh : (detect_format u (some data)).height = H)
    (hb : (detect_format u (some data)).bpp = B) (hB : B = 24 ∨ B = 32)
    (hN : W * H * 4 < 2147483648)
    (hlen : (detect_format u (some data)).data_offset + H * ((W * (B / 8) + 3) / 4 * 4)
      ≤ data.length) :
    ∃ buf, read_pixels (detect_format u (some data)) rgb0 data = Except.ok (some buf) ∧
      buf.length = W * H * 4 ∧
      ∀ x y, x < W → y < H →
        buf[4 * (y * W + x)]? = data[(detect_format u (some data)).data_offset
          + (H - 1 - y) * ((W * (B / 8) + 3) / 4 * 4) + x * (B / 8) + 2]? ∧
        buf[4 * (y * W + x) + 1]? = data[(detect_format u (some data)).data_offset
          + (H - 1 - y) * ((W * (B / 8) + 3) / 4 * 4) + x * (B / 8) + 1]? ∧
        buf[4 * (y * W + x) + 2]? = data[(detect_format u (some data)).data_offset
          + (H - 1 - y) * ((W * (B / 8) + 3) / 4 * 4) + x * (B / 8)]? ∧
        buf[4 * (y * W + x) + 3]? =
          (if B = 32 then data[(detect_format u (some data)).data_offset
            + (H - 1 - y) * ((W * (B / 8) + 3) / 4 * 4) + x * (B / 8) + 3]?
          else some 255) := by
  have hBP : (B = 24 ∧ B / 8 = 3) ∨ (B = 32 ∧ B / 8 = 4) := by
    rcases hB with h | h
    · exact Or.inl ⟨h, by rw [h]⟩
    · exact Or.inr ⟨h, by rw [h]⟩
  have hH : H < 2147483648 := by
    have := (detect_format_bmp_fields u (some data) hfmt).1
    rw [hh] at this
    exact_mod_cast this
  exact read_pixels_bmp_content (detect_format u (some data)) rgb0 data W H B (B / 8)
    hfmt hw hh hb hBP hH hN hlen

/-- The amended C3 on the 2x2 24-bit bitmap `bmp2x2`, whose stored rows are
`1 2 3 4 5 6` and `11 12 13 14 15 16`, each followed by two bytes of padding. -/
theorem bitmap_pixels_witness :
    (detect_format zeroed (some bmp2x2)).format = BGIFormat.BMP_FORMAT ∧
      (detect_format zeroed (some bmp2x2)).data_offset + 2 * ((2 * (24 / 8) + 3) / 4 * 4)
        ≤ bmp2x2.length ∧
      read_pixels (detect_format zeroed (some bmp2x2)) zeroRgb bmp2x2 =
        Except.ok (some [13, 12, 11, 255, 16, 15, 14, 255, 3, 2, 1, 255, 6, 5, 4, 255]) ∧
      ∃ buf, read_pixels (detect_format zeroed (some bmp2x2)) zeroRgb bmp2x2
          = Except.ok (some buf) ∧ buf.length = 2 * 2 * 4 ∧
        ∀ x y, x < 2 → y < 2 →
          buf[4 * (y * 2 + x)]? = bmp2x2[(detect_format zeroed (some bmp2x2)).data_offset
            + (2 - 1 - y) * ((2 * (24 / 8) + 3) / 4 * 4) + x * (24 / 8) + 2]? ∧
          buf[4 * (y * 2 + x) + 1]? = bmp2x2[(detect_format zeroed (some bmp2x2)).data_offset
            + (2 - 1 - y) * ((2 * (24 / 8) + 3) / 4 * 4) + x * (24 / 8) + 1]? ∧
          buf[4 * (y * 2 + x) + 2]? = bmp2x2[(detect_format zeroed (some bmp2x2)).data_offset
            + (2 - 1 - y) * ((2 * (24 / 8) + 3) / 4 * 4) + x * (24 / 8)]? ∧
          buf[4 * (y * 2 + x) + 3]? =
            (if 24 = 32 then bmp2x2[(detect_format zeroed (some bmp2x2)).data_offset
              + (2 - 1 - y) * ((2 * (24 / 8) + 3) / 4 * 4) + x * (24 / 8) + 3]?
            else some 255) :=
  ⟨by decide, by decide, rfl,
    bitmap_pixels zeroed zeroRgb bmp2x2 2 2 24 (by decide) (by decide) (by decide) (by decide)
      (by decide) (by decide) (by decide)⟩

/-- C4, as stated, fails: `rgbaHuge` is a 32768x16384 file of format 0x20 that holds its
whole payload of 2^31 bytes, and the conversion ends in the constructor of `pixels_rgba`,
because `width * height * 4` is not an `int`. -/
theorem rgba_huge_fails :
    (detect_format zeroed (some rgbaHuge)).format = BGIFormat.RGBA_0x20 ∧
      (detect_format zeroed (some rgbaHuge)).width = 32768 ∧
      (detect_format zeroed (some rgbaHuge)).height = 16384 ∧
      16 + 32768 * 16384 * 4 ≤ rgbaHuge.length ∧
      read_pixels (detect_format zeroed (some rgbaHuge)) zeroRgb rgbaHuge
        = Except.error Fault.length_error := by
  have hd : detect_format zeroed (some rgbaHuge) =
      { format := BGIFormat.RGBA_0x20, width := 32768, height := 16384, bpp := 32,
        data_offset := 16 } := by
    have h := detect_format_custom zeroed rgbaHuge
      (by rw [rgbaHuge, List.length_append, List.length_replicate]; decide)
      (by rw [rgbaHuge, byteAt_append_left _ _ _ (by decide)]; decide)
    rw [h, rgbaHuge, u32le_append_left _ _ 4 (by decide), u16le_append_left _ _ 0 (by decide),
      u16le_append_left _ _ 2 (by decide)]
    decide
  rw [hd]
  refine ⟨rfl, rfl, rfl, ?_, rfl⟩
  rw [rgbaHuge, List.length_append, List.length_replicate]
  decide

/-- C4, amended with the bound `w * h * 4 < 2^31`: for a file that does not begin with
"BM", has the tag 0x20, width `w` and height `h` with `w * h * 4 < 2^31`, and holds at least
`16 + w * h * 4` bytes, the file is classified `RGBA_0x20` and the pixel buffer is exactly
the bytes of the file from offset 16 up to `16 + w * h * 4`. -/
theorem rgba_identity (u : Uninit) (rgb0 : Nat → List Byte) (data : List Byte)
    (hsig : ¬ (byteAt data 0 = 0x42 ∧ byteAt data 1 = 0x4D))
    (htag : u32le data 4 = 0x00000020)
    (hN : u16le data 0 * u16le data 2 * 4 < 2147483648)
    (hlen : 16 + u16le data 0 * u16le data 2 * 4 ≤ data.length) :
    (detect_format u (some data)).format = BGIFormat.RGBA_0x20 ∧
      (detect_format u (some data)).width = u16le data 0 ∧
      (detect_format u (some data)).height = u16le data 2 ∧
      read_pixels (detect_format u (some data)) rgb0 data =
        Except.ok (some ((data.drop 16).take (u16le data 0 * u16le data 2 * 4))) := by
  have hd := detect_format_custom u data (by omega) hsig
  rw [if_pos htag] at hd
  rw [hd]
  refine ⟨rfl, rfl, rfl, ?_⟩
  rw [read_pixels_rgba _ rgb0 data (u16le data 0) (u16le data 2) rfl rfl rfl hN]
  simp only [IStream.seekg_opened]
  rw [IStream.read_fst_of_le _ _ _ rfl (by simp only []; omega)]
  simp

/-- The amended C4 on the 2x1 file `rgba2x1` with the payload `1 2 3 4 5 6 7 8`. -/
theorem rgba_identity_witness :
    16 + u16le rgba2x1 0 * u16le rgba2x1 2 * 4 ≤ rgba2x1.length ∧
      read_pixels (detect_format zeroed (some rgba2x1)) zeroRgb rgba2x1 =
        Except.ok (some [1, 2, 3, 4, 5, 6, 7, 8]) :=
  ⟨by decide,
    (rgba_identity zeroed zeroRgb rgba2x1 (by decide) (by decide) (by decide)
      (by decide)).2.2.2.trans rfl⟩

/-! ## The size of the pixel buffer -/

theorem bind_ok {α β : Type} {x : Except Fault α} {f : α → Except Fault β} {b : β}
    (h : (x >>= f) = Except.ok b) : ∃ a, x = Except.ok a ∧ f a = Except.ok b := by
  cases x with
  | error e => simp [bind, Except.bind] at h
  | ok a => exact ⟨a, rfl, h⟩

theorem vector_new_length {n : Int} {v : List Byte} (h : vector_new n = Except.ok v) :
    0 ≤ n ∧ v.length = n.toNat := by
  unfold vector_new at h
  split_ifs at h with hn
  simp only [Except.ok.injEq] at h
  subst h
  exact ⟨by omega, List.length_replicate _ _⟩

theorem store_length {v v' : List Byte} {i : Int} {b : Byte}
    (h : store v i b = Except.ok v') : v'.length = v.length := by
  unfold store at h
  split_ifs at h
  simp only [Except.ok.injEq] at h
  subst h
  exact List.length_set _ _ _

theorem memcpy_length {dst src r : List Byte} {d s n : Int}
    (h : memcpy dst d src s n = Except.ok r) : r.length = dst.length := by
  unfold memcpy at h
  split_ifs at h with hc
  simp only [Except.ok.injEq] at h
  subst h
  simp only [List.length_append, List.length_take, List.length_drop]
  omega

theorem forLoop_preserves {σ : Type} (Q : σ → Prop) (n : Nat)
    (body : Nat → σ → Except Fault σ) (s t : σ)
    (hb : ∀ k s s', Q s → body k s = Except.ok s' → Q s') (hs : Q s)
    (h : forLoop n body s = Except.ok t) : Q t := by
  induction n generalizing t with
  | zero =>
    simp only [forLoop, Except.ok.injEq] at h
    subst h
    exact hs
  | succ m ih =>
    simp only [forLoop] at h
    cases hm : forLoop m body s with
    | error e => rw [hm] at h; simp at h
    | ok s' =>
      rw [hm] at h
      exact hb m s' t (ih s' hm) h

theorem rgb_pixel_length {rgb0 : Nat → List Byte} {i : Nat} {st st' : List Byte × IStream}
    (h : rgb_pixel rgb0 i st = Except.ok st') : st'.1.length = st.1.length := by
  unfold rgb_pixel at h
  obtain ⟨p1, h1, h⟩ := bind_ok h
  obtain ⟨p2, h2, h⟩ := bind_ok h
  obtain ⟨p3, h3, h⟩ := bind_ok h
  obtain ⟨p4, h4, h⟩ := bind_ok h
  simp only [pure, Except.pure, Except.ok.injEq] at h
  subst h
  simp only []
  rw [store_length h4, store_length h3, store_length h2, store_length h1]

/-- Whenever the switch of `bgi_to_tga` is left with a pixel buffer, the buffer has the size
given to the constructor of `pixels_rgba`: the `int` value of `width * height * 4`. -/
theorem read_pixels_length (info : FileInfo) (rgb0 : Nat → List Byte) (data buf : List Byte)
    (h : read_pixels info rgb0 data = Except.ok (some buf)) :
    0 ≤ mul32 (mul32 info.width info.height) 4 ∧
      buf.length = (mul32 (mul32 info.width info.height) 4).toNat := by
  unfold read_pixels at h
  obtain ⟨px, hpx, h⟩ := bind_ok h
  obtain ⟨hn, hl⟩ := vector_new_length hpx
  refine ⟨hn, ?_⟩
  cases hf : info.format with
  | UNKNOWN =>
    rw [hf] at h
    simp [pure, Except.pure] at h
  | BMP_FORMAT =>
    rw [hf] at h
    simp only [] at h
    obtain ⟨fl, hfl, h⟩ := bind_ok h
    simp only [pure, Except.pure, Except.ok.injEq, Option.some.injEq] at h
    subst h
    unfold convert_bmp at hfl
    obtain ⟨st, _, hfl⟩ := bind_ok hfl
    obtain ⟨fl0, hfl0, hfl⟩ := bind_ok hfl
    have := forLoop_preserves (fun (t : List Byte) => t.length = fl0.length) _ _ _ _
      (fun k s s' hs hb => by
        unfold bmp_flip at hb
        exact (memcpy_length hb).trans hs) rfl hfl
    rw [this]
    exact (vector_new_length hfl0).2
  | RGBA_0x20 =>
    rw [hf] at h
    simp only [pure, Except.pure, Except.ok.injEq, Option.some.injEq] at h
    subst h
    exact IStream.read_fst_length _ _ _ hl
  | RGB_0x00 =>
    rw [hf] at h
    simp only [] at h
    obtain ⟨st, hst, h⟩ := bind_ok h
    simp only [pure, Except.pure, Except.ok.injEq, Option.some.injEq] at h
    subst h
    have := forLoop_preserves (fun (t : List Byte × IStream) => t.1.length = px.length) _ _ _ _
      (fun k s s' hs hb => (rgb_pixel_length hb).trans hs) rfl hst
    rw [this]
    exact hl

/-- C5, as stated, fails: `rgbHuge` is a 32768x16384 file of format 0 that holds its whole
payload of 3 * 2^29 bytes, and the conversion ends in the constructor of `pixels_rgba`,
because `width * height * 4` is not an `int`. -/
theorem rgb_huge_fails :
    (detect_format zeroed (some rgbHuge)).format = BGIFormat.RGB_0x00 ∧
      (detect_format zeroed (some rgbHuge)).width = 32768 ∧
      (detect_format zeroed (some rgbHuge)).height = 16384 ∧
      16 + 32768 * 16384 * 3 ≤ rgbHuge.length ∧
      read_pixels (detect_format zeroed (some rgbHuge)) zeroRgb rgbHuge
        = Except.error Fault.length_error := by
  have hd : detect_format zeroed (some rgbHuge) =
      { format := BGIFormat.RGB_0x00, width := 32768, height := 16384, bpp := 24,
        data_offset := 16 } := by
    have h := detect_format_custom zeroed rgbHuge
      (by rw [rgbHuge, List.length_append, List.length_replicate]; decide)
      (by rw [rgbHuge, byteAt_append_left _ _ _ (by decide)]; decide)
    rw [h, rgbHuge, u32le_append_left _ _ 4 (by decide), u16le_append_left _ _ 0 (by decide),
      u16le_append_left _ _ 2 (by decide)]
    decide
  rw [hd]
  refine ⟨rfl, rfl, rfl, ?_, rfl⟩
  rw [rgbHuge, List.length_append, List.length_replicate]
  decide

/-- C5, amended with the bound `w * h * 4 < 2^31`: for a file that does not begin with
"BM", has the tag 0, width `w` and height `h` with `w * h * 4 < 2^31`, and holds at least
`16 + w * h * 3` bytes, the file is classified `RGB_0x00` and the pixel buffer has
`w * h * 4` bytes: for every `i < w * h` its bytes `4i`, `4i+1`, `4i+2` are the file bytes
`16+3i`, `16+3i+1`, `16+3i+2` and its byte `4i+3` is 255. -/
theorem rgb_expand (u : Uninit) (rgb0 : Nat → List Byte) (data : List Byte)
    (hsig : ¬ (byteAt data 0 = 0x42 ∧ byteAt data 1 = 0x4D))
    (htag : u32le data 4 = 0x00000000)
    (hN : u16le data 0 * u16le data 2 * 4 < 2147483648)
    (hlen : 16 + u16le data 0 * u16le data 2 * 3 ≤ data.length) :
    (detect_format u (some data)).format = BGIFormat.RGB_0x00 ∧
      (detect_format u (some data)).width = u16le data 0 ∧
      (detect_format u (some data)).height = u16le data 2 ∧
      ∃ buf, read_pixels (detect_format u (some data)) rgb0 data = Except.ok (some buf) ∧
        buf.length = u16le data 0 * u16le data 2 * 4 ∧
        ∀ i, i < u16le data 0 * u16le data 2 →
          buf[4 * i]? = data[16 + 3 * i]? ∧ buf[4 * i + 1]? = data[16 + 3 * i + 1]? ∧
          buf[4 * i + 2]? = data[16 + 3 * i + 2]? ∧ buf[4 * i + 3]? = some 255 := by
  have hd := detect_format_custom u data (by omega) hsig
  rw [if_neg (by omega), if_pos htag] at hd
  rw [hd]
  refine ⟨rfl, rfl, rfl, ?_⟩
  obtain ⟨t, ht, hl, hc⟩ := rgb_loop_content rgb0 (u16le data 0 * u16le data 2)
    (List.replicate (u16le data 0 * u16le data 2 * 4) 0) data 16
    (by rw [List.length_replicate]; omega) (by rw [List.length_replicate]; exact hN)
    (by omega)
  refine ⟨t.1, ?_, ?_, hc⟩
  · exact read_pixels_rgb _ rgb0 data (u16le data 0) (u16le data 2) rfl rfl rfl hN t ht
  · rw [hl, List.length_replicate]

/-- The amended C5 on the 2x2 file of the claim, with the payload
`FF 00 00  00 FF 00  00 00 FF  FF FF FF`: the pixel buffer is
`FF 00 00 FF  00 FF 00 FF  00 00 FF FF  FF FF FF FF`. -/
theorem rgb_expand_witness :
    16 + u16le rgb2x2 0 * u16le rgb2x2 2 * 3 ≤ rgb2x2.length ∧
      read_pixels (detect_format zeroed (some rgb2x2)) zeroRgb rgb2x2 = Except.ok (some
        [0xFF, 0, 0, 0xFF, 0, 0xFF, 0, 0xFF, 0, 0, 0xFF, 0xFF, 0xFF, 0xFF, 0xFF, 0xFF]) ∧
      ∃ buf, read_pixels (detect_format zeroed (some rgb2x2)) zeroRgb rgb2x2
          = Except.ok (some buf) ∧ buf.length = u16le rgb2x2 0 * u16le rgb2x2 2 * 4 ∧
        ∀ i, i < u16le rgb2x2 0 * u16le rgb2x2 2 →
          buf[4 * i]? = rgb2x2[16 + 3 * i]? ∧ buf[4 * i + 1]? = rgb2x2[16 + 3 * i + 1]? ∧
          buf[4 * i + 2]? = rgb2x2[16 + 3 * i + 2]? ∧ buf[4 * i + 3]? = some 255 :=
  ⟨by decide, rfl,
    (rgb_expand zeroed zeroRgb rgb2x2 (by decide) (by decide) (by decide) (by decide)).2.2.2⟩

/-! ## The claims on `bgi_to_tga` -/

theorem toByte_val (x : Int) : ((toByte x).val : Int) = x % 256 := by
  unfold toByte
  have h1 : 0 ≤ x % 256 := Int.emod_nonneg x (by decide)
  have h2 : x % 256 < 256 := Int.emod_lt_of_pos x (by decide)
  have h3 : (x % 256).toNat < 256 := by omega
  simp only [Fin.ofNat, Nat.mod_eq_of_lt h3]
  omega

theorem tga_header_length (w h : Int) : (tga_header w h).length = 18 := rfl

/-- The value of `bgi_to_tga` when the switch is left with a pixel buffer and the output
file can be created. -/
theorem bgi_to_tga_of_pixels (u : Uninit) (rgb0 : Nat → List Byte) (data buf : List Byte)
    (hf : (detect_format u (some data)).format ≠ BGIFormat.UNKNOWN)
    (h : read_pixels (detect_format u (some data)) rgb0 data = Except.ok (some buf)) :
    bgi_to_tga u rgb0 (some data) true = Except.ok (true, some
      (tga_header (detect_format u (some data)).width (detect_format u (some data)).height
        ++ buf)) := by
  unfold bgi_to_tga
  simp only [hf, if_false, h, if_true]

/-- C6, as stated, fails: the 16-byte file `rgbaWrap` declares 32768x32768 pixels of format
0x20; `width * height * 4` wraps to 0 as an `int`, the conversion succeeds and the output is
the 18 bytes of the header, not 18 + 32768 * 32768 * 4 bytes. -/
theorem wrapped_size_output :
    (detect_format zeroed (some rgbaWrap)).width = 32768 ∧
      (detect_format zeroed (some rgbaWrap)).height = 32768 ∧
      bgi_to_tga zeroed zeroRgb (some rgbaWrap) true
        = Except.ok (true, some (tga_header 32768 32768)) ∧
      (tga_header 32768 32768).length ≠ 18 + 32768 * 32768 * 4 :=
  ⟨by decide, by decide, rfl, by decide⟩

/-- C6, amended: when `bgi_to_tga` returns `true`, the output is an 18-byte header followed
by the pixel buffer and nothing else.  In the header every byte is 0 except byte 2 = 2,
bytes 12-13 = the low 16 bits of the width, little-endian, bytes 14-15 = the low 16 bits of
the height, byte 16 = 32 and byte 17 = 0x20.  The buffer has as many bytes as the `int`
value of `width * height * 4`, which is `width * height * 4` when that product lies in
`[-2^31, 2^31)`; the output then has `18 + width * height * 4` bytes. -/
theorem bgi_to_tga_output (u : Uninit) (rgb0 : Nat → List Byte) (input : Option (List Byte))
    (canCreate : Bool) (out : List Byte)
    (h : bgi_to_tga u rgb0 input canCreate = Except.ok (true, some out)) :
    ∃ data buf, input = some data ∧
      read_pixels (detect_format u input) rgb0 data = Except.ok (some buf) ∧
      out = tga_header (detect_format u input).width (detect_format u input).height ++ buf ∧
      out.take 18 = tga_header (detect_format u input).width (detect_format u input).height ∧
      out.drop 18 = buf ∧
      (∀ i, i < 12 → i ≠ 2 → byteAt out i = 0) ∧ byteAt out 2 = 2 ∧
      ((byteAt out 12 : Int) + 256 * (byteAt out 13 : Int)
        = (detect_format u input).width % 65536) ∧
      ((byteAt out 14 : Int) + 256 * (byteAt out 15 : Int)
        = (detect_format u input).height % 65536) ∧
      byteAt out 16 = 32 ∧ byteAt out 17 = 0x20 ∧
      (buf.length : Int)
        = mul32 (mul32 (detect_format u input).width (detect_format u input).height) 4 ∧
      (-2147483648 ≤ (detect_format u input).width * (detect_format u input).height * 4 →
        (detect_format u input).width * (detect_format u input).height * 4 < 2147483648 →
        (buf.length : Int)
          = (detect_format u input).width * (detect_format u input).height * 4 ∧
        (out.length : Int)
          = 18 + (detect_format u input).width * (detect_format u input).height * 4) := by
  unfold bgi_to_tga at h
  simp only [] at h
  by_cases hf : (detect_format u input).format = BGIFormat.UNKNOWN
  · rw [if_pos hf] at h
    simp at h
  rw [if_neg hf] at h
  cases input with
  | none => simp at h
  | some data =>
    simp only [] at h
    cases hp : read_pixels (detect_format u (some data)) rgb0 data with
    | error e => rw [hp] at h; simp at h
    | ok r =>
      cases r with
      | none => rw [hp] at h; simp at h
      | some buf =>
        rw [hp] at h
        simp only [] at h
        cases canCreate with
        | false => simp at h
        | true =>
        simp only [if_true, Except.ok.injEq, Prod.mk.injEq, true_and, Option.some.injEq] at h
        obtain ⟨hn, hl⟩ := read_pixels_length _ rgb0 data buf hp
        have hlen : (buf.length : Int)
            = mul32 (mul32 (detect_format u (some data)).width
              (detect_format u (some data)).height) 4 := by
          rw [hl]
          exact Int.toNat_of_nonneg hn
        have hw := toByte_val (detect_format u (some data)).width
        have hw2 := toByte_val ((detect_format u (some data)).width / 256)
        have hh := toByte_val (detect_format u (some data)).height
        have hh2 := toByte_val ((detect_format u (some data)).height / 256)
        refine ⟨data, buf, rfl, hp, h.symm, ?_, ?_, ?_, ?_, ?_, ?_, ?_, ?_, hlen, ?_⟩
        · rw [← h, List.take_append_of_le_length (by rw [tga_header_length])]
          exact List.take_of_length_le (by rw [tga_header_length])
        · rw [← h]
          exact List.drop_left' (tga_header_length _ _)
        · intro i hi hi2
          rw [← h, byteAt_append_left _ _ _ (by rw [tga_header_length]; omega)]
          have : i = 0 ∨ i = 1 ∨ i = 3 ∨ i = 4 ∨ i = 5 ∨ i = 6 ∨ i = 7 ∨ i = 8 ∨ i = 9 ∨
              i = 10 ∨ i = 11 := by omega
          rcases this with h | h | h | h | h | h | h | h | h | h | h <;> subst h <;> rfl
        · rw [← h, byteAt_append_left _ _ _ (by rw [tga_header_length]; omega)]
          rfl
        · rw [← h, byteAt_append_left _ _ _ (by rw [tga_header_length]; omega),
            byteAt_append_left _ _ _ (by rw [tga_header_length]; omega)]
          show ((toByte _).val : Int) + 256 * ((toByte _).val : Int) = _
          rw [hw, hw2]
          omega
        · rw [← h, byteAt_append_left _ _ _ (by rw [tga_header_length]; omega),
            byteAt_append_left _ _ _ (by rw [tga_header_length]; omega)]
          show ((toByte _).val : Int) + 256 * ((toByte _).val : Int) = _
          rw [hh, hh2]
          omega
        · rw [← h, byteAt_append_left _ _ _ (by rw [tga_header_length]; omega)]
          rfl
        · rw [← h, byteAt_append_left _ _ _ (by rw [tga_header_length]; omega)]
          rfl
        · intro h1 h2
          have e : mul32 (mul32 (detect_format u (some data)).width
              (detect_format u (some data)).height) 4
              = (detect_format u (some data)).width * (detect_format u (some data)).height * 4 := by
            unfold mul32
            generalize (detect_format u (some data)).width
              * (detect_format u (some data)).height = p at h1 h2 ⊢
            rw [@wrap32_of_range p (by omega) (by omega)]
            exact wrap32_of_range h1 h2
          refine ⟨hlen.trans e, ?_⟩
          rw [← h, List.length_append, tga_header_length, Nat.cast_add, hlen, e]
          rfl

/-- The amended C6 on the 2x1 file `rgba2x1`: the output is the header for 2x1 followed by
the eight bytes of the payload. -/
theorem bgi_to_tga_output_witness :
    bgi_to_tga zeroed zeroRgb (some rgba2x1) true = Except.ok (true, some
      [0, 0, 2, 0, 0, 0, 0, 0, 0, 0, 0, 0, 2, 0, 1, 0, 32, 0x20, 1, 2, 3, 4, 5, 6, 7, 8]) ∧
    ∃ data buf, some rgba2x1 = some data ∧
      read_pixels (detect_format zeroed (some rgba2x1)) zeroRgb data = Except.ok (some buf) ∧
      [0, 0, 2, 0, 0, 0, 0, 0, 0, 0, 0, 0, 2, 0, 1, 0, 32, 0x20, 1, 2, 3, 4, 5, 6, 7, 8]
        = tga_header (detect_format zeroed (some rgba2x1)).width
          (detect_format zeroed (some rgba2x1)).height ++ buf :=
  ⟨rfl, by
    obtain ⟨data, buf, h1, h2, h3, _⟩ := bgi_to_tga_output zeroed zeroRgb (some rgba2x1) true
      [0, 0, 2, 0, 0, 0, 0, 0, 0, 0, 0, 0, 2, 0, 1, 0, 32, 0x20, 1, 2, 3, 4, 5, 6, 7, 8] rfl
    exact ⟨data, buf, h1, h2, h3⟩⟩

/-- C7: for a file of at least 16 bytes that does not begin with "BM" and whose tag at bytes
4-7 is neither 0x20 nor 0, `detect_format` returns `UNKNOWN` and `bgi_to_tga` returns
`false` without creating the output file, whether or not that file could be created. -/
theorem unknown_tag_rejected (u : Uninit) (rgb0 : Nat → List Byte) (data : List Byte)
    (canCreate : Bool) (hlen : 16 ≤ data.length)
    (hsig : ¬ (byteAt data 0 = 0x42 ∧ byteAt data 1 = 0x4D))
    (h1 : u32le data 4 ≠ 0x00000020) (h2 : u32le data 4 ≠ 0x00000000) :
    (detect_format u (some data)).format = BGIFormat.UNKNOWN ∧
      bgi_to_tga u rgb0 (some data) canCreate = Except.ok (false, none) := by
  have hd := detect_format_custom u data (by omega) hsig
  rw [if_neg h1, if_neg h2] at hd
  have hf : (detect_format u (some data)).format = BGIFormat.UNKNOWN := by rw [hd]
  refine ⟨hf, ?_⟩
  unfold bgi_to_tga
  simp only [hf, if_true]

/-- C7 on the 16-byte header `unknownTag`, whose tag is 0x18. -/
theorem unknown_tag_rejected_witness :
    16 ≤ unknownTag.length ∧ u32le unknownTag 4 = 0x18 ∧
      (detect_format zeroed (some unknownTag)).format = BGIFormat.UNKNOWN ∧
      bgi_to_tga zeroed zeroRgb (some unknownTag) true = Except.ok (false, none) :=
  ⟨by decide, by decide,
    unknown_tag_rejected zeroed zeroRgb unknownTag true (by decide) (by decide) (by decide)
      (by decide)⟩

/-- C8, as stated, fails: `rgbaTruncated` is classified `RGBA_0x20`, declares 4x4 pixels and
holds 48 bytes of payload instead of 64; `bgi_to_tga` returns `true` and writes the header,
the 48 bytes and 16 zero bytes. -/
theorem truncated_rgba_converted :
    (detect_format zeroed (some rgbaTruncated)).format = BGIFormat.RGBA_0x20 ∧
      (detect_format zeroed (some rgbaTruncated)).width = 4 ∧
      (detect_format zeroed (some rgbaTruncated)).height = 4 ∧
      rgbaTruncated.length - 16 = 3 * 4 * 4 ∧ rgbaTruncated.length - 16 < 4 * 4 * 4 ∧
      bgi_to_tga zeroed zeroRgb (some rgbaTruncated) true = Except.ok (true, some
        (tga_header 4 4 ++ List.replicate 48 7 ++ List.replicate 16 0)) :=
  ⟨by decide, by decide, by decide, by decide, by decide, rfl⟩

/-- C8, amended: `bgi_to_tga` does not check how many bytes of payload it could read.  For a
file classified `RGBA_0x20` or `RGB_0x00`, or `BMP_FORMAT` with 24 or 32 bits per pixel,
with width `W`, height `H` and `W * H * 4 < 2^31`, the conversion returns `true` and writes
the 18-byte header followed by `W * H * 4` bytes, however short the payload is; for
`RGBA_0x20` these bytes are the payload that is there, followed by zero bytes. -/
theorem short_payload_converted (u : Uninit) (rgb0 : Nat → List Byte) (data : List Byte)
    (W H : Nat)
    (hk : (detect_format u (some data)).format = BGIFormat.RGBA_0x20 ∨
      (detect_format u (some data)).format = BGIFormat.RGB_0x00 ∨
      ((detect_format u (some data)).format = BGIFormat.BMP_FORMAT ∧
        ((detect_format u (some data)).bpp = 24 ∨ (detect_format u (some data)).bpp = 32)))
    (hw : (detect_format u (some data)).width = W)
    (hh : (detect_format u (some data)).height = H)
    (hN : W * H * 4 < 2147483648) :
    ∃ buf, bgi_to_tga u rgb0 (some data) true = Except.ok (true, some
        (tga_header (W : Int) (H : Int) ++ buf)) ∧
      buf.length = W * H * 4 ∧
      ((detect_format u (some data)).format = BGIFormat.RGBA_0x20 →
        buf = (data.drop 16).take (W * H * 4)
          ++ List.replicate (W * H * 4 - (data.length - 16)) 0) := by
  have hf : (detect_format u (some data)).format ≠ BGIFormat.UNKNOWN := by
    rcases hk with h | h | h
    · rw [h]; decide
    · rw [h]; decide
    · rw [h.1]; decide
  have hpix : ∃ buf, read_pixels (detect_format u (some data)) rgb0 data = Except.ok (some buf) ∧
      buf.length = W * H * 4 ∧
      ((detect_format u (some data)).format = BGIFormat.RGBA_0x20 →
        buf = (data.drop 16).take (W * H * 4)
          ++ List.replicate (W * H * 4 - (data.length - 16)) 0) := by
    rcases hk with h | h | h
    · obtain ⟨_, _, _, _, _, _, hoff, _, _⟩ :=
        detect_format_custom_fields u (some data) (Or.inl h)
      refine ⟨_, read_pixels_rgba _ rgb0 data W H h hw hh hN, ?_, fun _ => ?_⟩
      · exact IStream.read_fst_length _ _ _ (List.length_replicate _ _)
      · rw [hoff, IStream.seekg_opened]
        simp only [IStream.read, IStream.rest, Bool.false_eq_true, if_false,
          List.drop_replicate, List.length_take, List.length_drop]
        congr 2
        omega
    · obtain ⟨t, ht, hl⟩ := rgb_loop_length rgb0 (W * H) (List.replicate (W * H * 4) 0)
        ((IStream.opened data).seekg (detect_format u (some data)).data_offset)
        (by rw [List.length_replicate]; omega) (by rw [List.length_replicate]; exact hN)
      refine ⟨t.1, read_pixels_rgb _ rgb0 data W H h hw hh hN t ht, ?_, fun h' => ?_⟩
      · rw [hl, List.length_replicate]
      · rw [h] at h'
        exact absurd h' (by decide)
    · obtain ⟨hfmt, hb⟩ := h
      have hH : H < 2147483648 := by
        have := (detect_format_bmp_fields u (some data) hfmt).1
        rw [hh] at this
        exact_mod_cast this
      have hbp : ∃ B P : Nat, (detect_format u (some data)).bpp = B ∧
          ((B = 24 ∧ P = 3) ∨ (B = 32 ∧ P = 4)) := by
        rcases hb with hb | hb
        · exact ⟨24, 3, hb, Or.inl ⟨rfl, rfl⟩⟩
        · exact ⟨32, 4, hb, Or.inr ⟨rfl, rfl⟩⟩
      obtain ⟨B, P, hB, hBP⟩ := hbp
      obtain ⟨buf, h1, h2⟩ := read_pixels_bmp_length _ rgb0 data W H B P hfmt hw hh hB hBP hH hN
      refine ⟨buf, h1, h2, fun h' => ?_⟩
      rw [hfmt] at h'
      exact absurd h' (by decide)
  obtain ⟨buf, h1, h2, h3⟩ := hpix
  refine ⟨buf, ?_, h2, h3⟩
  rw [bgi_to_tga_of_pixels u rgb0 data buf hf h1, hw, hh]

/-- The amended C8 on the truncated 4x4 file of the claim. -/
theorem short_payload_converted_witness :
    rgbaTruncated.length - 16 < 4 * 4 * 4 ∧
    ∃ buf, bgi_to_tga zeroed zeroRgb (some rgbaTruncated) true = Except.ok (true, some
        (tga_header ((4 : Nat) : Int) ((4 : Nat) : Int) ++ buf)) ∧
      buf.length = 4 * 4 * 4 ∧
      ((detect_format zeroed (some rgbaTruncated)).format = BGIFormat.RGBA_0x20 →
        buf = (rgbaTruncated.drop 16).take (4 * 4 * 4)
          ++ List.replicate (4 * 4 * 4 - (rgbaTruncated.length - 16)) 0) :=
  ⟨by decide,
    short_payload_converted zeroed zeroRgb rgbaTruncated 4 4 (Or.inl (by decide)) (by decide)
      (by decide) (by decide)⟩

end BGI
